import Mathlib

/-!
Verification of the credential and session-token lifecycle subsystem of the
case-backend participant identity service.

The Go sources are embedded shallowly:
* the `pwhash` package (argon2id password hashing wrapper) is translated
  function by function; the external `argon2.IDKey` derivation from
  `golang.org/x/crypto` is kept abstract as an explicit function parameter,
* Go byte slices become `List Nat` (each element < 256), Go strings become
  `List Char` where their character structure matters,
* the gin HTTP handlers of `services/participant-api/apihandlers/authentication.go`
  become pure functions over an explicit environment record that carries the
  responses of the external stores (user DB, refresh-token ledger, token store);
  side effects (store writes, dispatched emails, artificial delays) are
  recorded in an outcome record so that theorems can speak about them,
* store operations and helpers whose Go source is not part of the reviewed
  files (`umUtils`, renew-token ledger store) are modelled from the spec; each
  such definition carries a doc comment starting with `Modelled from the spec:`.
-/

namespace CaseBackend

/-! ## Base64 (Go `encoding/base64` RawStdEncoding, unpadded) -/

/-- The standard base64 alphabet used by Go's `base64.RawStdEncoding`. -/
def b64Alphabet : List Char :=
  ['A','B','C','D','E','F','G','H','I','J','K','L','M',
   'N','O','P','Q','R','S','T','U','V','W','X','Y','Z',
   'a','b','c','d','e','f','g','h','i','j','k','l','m',
   'n','o','p','q','r','s','t','u','v','w','x','y','z',
   '0','1','2','3','4','5','6','7','8','9','+','/']

/-- Character for a 6-bit value. -/
def b64Char (n : Nat) : Char := b64Alphabet.getD n 'A'

/-- 6-bit value of an alphabet character; `none` for characters outside the
alphabet (Go reports a `CorruptInputError` for those). -/
def b64Index (c : Char) : Option Nat := b64Alphabet.findIdx? (· == c)

/-- `base64.RawStdEncoding.EncodeToString` on a byte slice: groups of three
bytes become four characters; a two-byte remainder becomes three characters
and a one-byte remainder two characters (no padding). -/
def encodeB64 : List Nat → List Char
  | b0 :: b1 :: b2 :: rest =>
    b64Char (b0 / 4) :: b64Char ((b0 % 4) * 16 + b1 / 16) ::
    b64Char ((b1 % 16) * 4 + b2 / 64) :: b64Char (b2 % 64) :: encodeB64 rest
  | [b0, b1] => [b64Char (b0 / 4), b64Char ((b0 % 4) * 16 + b1 / 16), b64Char ((b1 % 16) * 4)]
  | [b0] => [b64Char (b0 / 4), b64Char ((b0 % 4) * 16)]
  | [] => []

/-- Decoder over newline-free input, processing chunks of four characters; a
trailing chunk of a single character is a corrupt input (Go rejects it), and
as in Go's non-strict mode, unused trailing bits of a final short chunk are
ignored. -/
def decodeB64Chunks : List Char → Option (List Nat)
  | [] => some []
  | [_] => none
  | [x0, x1] => do
    let v0 ← b64Index x0
    let v1 ← b64Index x1
    pure [v0 * 4 + v1 / 16]
  | [x0, x1, x2] => do
    let v0 ← b64Index x0
    let v1 ← b64Index x1
    let v2 ← b64Index x2
    pure [v0 * 4 + v1 / 16, (v1 % 16) * 16 + v2 / 4]
  | x0 :: x1 :: x2 :: x3 :: rest => do
    let v0 ← b64Index x0
    let v1 ← b64Index x1
    let v2 ← b64Index x2
    let v3 ← b64Index x3
    let tail ← decodeB64Chunks rest
    pure ([v0 * 4 + v1 / 16, (v1 % 16) * 16 + v2 / 4, (v2 % 4) * 64 + v3] ++ tail)

/-- `base64.RawStdEncoding.DecodeString`: Go's decoder skips carriage returns
and line feeds anywhere in the input, then decodes in chunks of four. -/
def decodeB64 (s : List Char) : Option (List Nat) :=
  decodeB64Chunks (s.filter fun c => !(c == '\r' || c == '\n'))

theorem b64Index_b64Char : ∀ v : Nat, v < 64 → b64Index (b64Char v) = some v := by
  decide

theorem b64Char_mem_alphabet : ∀ v : Nat, v < 64 → b64Char v ∈ b64Alphabet := by
  decide

theorem b64Alphabet_no_dollar : ∀ c ∈ b64Alphabet, c ≠ '$' := by
  decide

theorem b64Alphabet_no_newline :
    ∀ c ∈ b64Alphabet, (!(c == '\r' || c == '\n')) = true := by
  decide

theorem encodeB64_mem_alphabet (b : List Nat) (hb : ∀ x ∈ b, x < 256) :
    ∀ c ∈ encodeB64 b, c ∈ b64Alphabet := by
  induction b using encodeB64.induct with
  | case1 b0 b1 b2 rest ih =>
    have h0 : b0 < 256 := hb b0 (by simp)
    have h1 : b1 < 256 := hb b1 (by simp)
    have h2 : b2 < 256 := hb b2 (by simp)
    intro c hc
    simp only [encodeB64, List.mem_cons] at hc
    rcases hc with h | h | h | h | h
    · exact h ▸ b64Char_mem_alphabet _ (by omega)
    · exact h ▸ b64Char_mem_alphabet _ (by omega)
    · exact h ▸ b64Char_mem_alphabet _ (by omega)
    · exact h ▸ b64Char_mem_alphabet _ (by omega)
    · exact ih (fun x hx => hb x (by simp [hx])) c h
  | case2 b0 b1 =>
    have h0 : b0 < 256 := hb b0 (by simp)
    have h1 : b1 < 256 := hb b1 (by simp)
    intro c hc
    simp only [encodeB64, List.mem_cons, List.not_mem_nil, or_false] at hc
    rcases hc with h | h | h
    · exact h ▸ b64Char_mem_alphabet _ (by omega)
    · exact h ▸ b64Char_mem_alphabet _ (by omega)
    · exact h ▸ b64Char_mem_alphabet _ (by omega)
  | case3 b0 =>
    have h0 : b0 < 256 := hb b0 (by simp)
    intro c hc
    simp only [encodeB64, List.mem_cons, List.not_mem_nil, or_false] at hc
    rcases hc with h | h
    · exact h ▸ b64Char_mem_alphabet _ (by omega)
    · exact h ▸ b64Char_mem_alphabet _ (by omega)
  | case4 =>
    intro c hc
    simp [encodeB64] at hc

theorem encodeB64_no_dollar (b : List Nat) (hb : ∀ x ∈ b, x < 256) :
    '$' ∉ encodeB64 b := by
  intro h
  exact b64Alphabet_no_dollar _ (encodeB64_mem_alphabet b hb '$' h) rfl

theorem decodeB64Chunks_encodeB64 (b : List Nat) (hb : ∀ x ∈ b, x < 256) :
    decodeB64Chunks (encodeB64 b) = some b := by
  induction b using encodeB64.induct with
  | case1 b0 b1 b2 rest ih =>
    have h0 : b0 < 256 := hb b0 (by simp)
    have h1 : b1 < 256 := hb b1 (by simp)
    have h2 : b2 < 256 := hb b2 (by simp)
    have ih' := ih (fun x hx => hb x (by simp [hx]))
    -- the four encoded characters decode back to their 6-bit values
    rw [encodeB64]
    rw [show decodeB64Chunks
        (b64Char (b0 / 4) :: b64Char ((b0 % 4) * 16 + b1 / 16) ::
         b64Char ((b1 % 16) * 4 + b2 / 64) :: b64Char (b2 % 64) :: encodeB64 rest) =
        (do
          let v0 ← b64Index (b64Char (b0 / 4))
          let v1 ← b64Index (b64Char ((b0 % 4) * 16 + b1 / 16))
          let v2 ← b64Index (b64Char ((b1 % 16) * 4 + b2 / 64))
          let v3 ← b64Index (b64Char (b2 % 64))
          let tail ← decodeB64Chunks (encodeB64 rest)
          pure ([v0 * 4 + v1 / 16, (v1 % 16) * 16 + v2 / 4, (v2 % 4) * 64 + v3] ++ tail))
        from by
          cases hrest : encodeB64 rest with
          | nil => rfl
          | cons a t => rfl]
    rw [b64Index_b64Char _ (by omega), b64Index_b64Char _ (by omega),
        b64Index_b64Char _ (by omega), b64Index_b64Char _ (by omega), ih']
    simp only [Option.bind_eq_bind, Option.some_bind, Option.pure_def, Option.some.injEq]
    have e0 : b0 / 4 * 4 + ((b0 % 4) * 16 + b1 / 16) / 16 = b0 := by omega
    have e1 : ((b0 % 4) * 16 + b1 / 16) % 16 * 16 + ((b1 % 16) * 4 + b2 / 64) / 4 = b1 := by
      omega
    have e2 : ((b1 % 16) * 4 + b2 / 64) % 4 * 64 + b2 % 64 = b2 := by omega
    rw [e0, e1, e2]
    rfl
  | case2 b0 b1 =>
    have h0 : b0 < 256 := hb b0 (by simp)
    have h1 : b1 < 256 := hb b1 (by simp)
    rw [encodeB64, decodeB64Chunks]
    rw [b64Index_b64Char _ (by omega), b64Index_b64Char _ (by omega),
        b64Index_b64Char _ (by omega)]
    simp only [Option.bind_eq_bind, Option.some_bind, Option.pure_def, Option.some.injEq]
    have e0 : b0 / 4 * 4 + ((b0 % 4) * 16 + b1 / 16) / 16 = b0 := by omega
    have e1 : ((b0 % 4) * 16 + b1 / 16) % 16 * 16 + (b1 % 16) * 4 / 4 = b1 := by omega
    rw [e0, e1]
  | case3 b0 =>
    have h0 : b0 < 256 := hb b0 (by simp)
    rw [encodeB64, decodeB64Chunks]
    rw [b64Index_b64Char _ (by omega), b64Index_b64Char _ (by omega)]
    simp only [Option.bind_eq_bind, Option.some_bind, Option.pure_def, Option.some.injEq]
    have e0 : b0 / 4 * 4 + ((b0 % 4) * 16) / 16 = b0 := by omega
    rw [e0]
  | case4 => rfl

theorem decodeB64_encodeB64 (b : List Nat) (hb : ∀ x ∈ b, x < 256) :
    decodeB64 (encodeB64 b) = some b := by
  unfold decodeB64
  rw [List.filter_eq_self.mpr
    (fun c hc => b64Alphabet_no_newline c (encodeB64_mem_alphabet b hb c hc))]
  exact decodeB64Chunks_encodeB64 b hb

/-! ## Decimal formatting (`fmt.Sprintf` `%d`) and scanning (`fmt.Sscanf` `%d`) -/

/-- Character for a decimal digit value. -/
def digitChar (n : Nat) : Char := Char.ofNat (48 + n)

/-- Is the character an ASCII decimal digit. -/
def isDigitChar (c : Char) : Bool := 48 ≤ c.toNat && c.toNat ≤ 57

/-- Digits of a positive number, most significant first; `fuel` bounds the
recursion depth (any `fuel ≥ n` is enough) so that the definition is
structurally recursive and kernel-computable. -/
def natToCharsCore : Nat → Nat → List Char
  | 0, _ => []
  | _ + 1, 0 => []
  | fuel + 1, n + 1 =>
    natToCharsCore fuel ((n + 1) / 10) ++ [digitChar ((n + 1) % 10)]

/-- Decimal representation of a natural number, as printed by `%d` for the
unsigned values appearing in the encoded hash. -/
def natToChars (n : Nat) : List Char :=
  if n = 0 then ['0'] else natToCharsCore n n

/-- Consume leading decimal digits, folding them onto an accumulator; returns
the value and the unconsumed remainder. -/
def parseDigitsAux : List Char → Nat → Nat × List Char
  | c :: cs, acc =>
    if isDigitChar c then parseDigitsAux cs (acc * 10 + (c.toNat - 48)) else (acc, c :: cs)
  | [], acc => (acc, [])

/-- Scan a non-empty run of decimal digits (the digit part of a `%d` verb);
fails when the input does not start with a digit. -/
def parseDigits : List Char → Option (Nat × List Char)
  | c :: cs => if isDigitChar c then some (parseDigitsAux cs (c.toNat - 48)) else none
  | [] => none

/-- Go's scanner skips spaces and tabs before a numeric verb. -/
def skipSpaces (l : List Char) : List Char := l.dropWhile fun c => c == ' ' || c == '\t'

/-- Scan a `%d` verb into a Go `int`: optional sign, digits, 64-bit range. -/
def scanInt (l : List Char) : Option (Int × List Char) :=
  let l1 := skipSpaces l
  if l1.head? = some '-' then
    (parseDigits l1.tail).bind fun p =>
      if p.1 ≤ 2 ^ 63 then some (-(p.1 : Int), p.2) else none
  else if l1.head? = some '+' then
    (parseDigits l1.tail).bind fun p =>
      if p.1 < 2 ^ 63 then some ((p.1 : Int), p.2) else none
  else
    (parseDigits l1).bind fun p =>
      if p.1 < 2 ^ 63 then some ((p.1 : Int), p.2) else none

/-- Scan a `%d` verb into an unsigned Go integer bounded by `bound`
(`2 ^ 32` for `uint32`, `2 ^ 8` for `uint8`): a minus sign or an
out-of-range value is a scan error. -/
def scanUintB (bound : Nat) (l : List Char) : Option (Nat × List Char) :=
  let l1 := skipSpaces l
  let l2 := if l1.head? = some '+' then l1.tail else l1
  (parseDigits l2).bind fun p => if p.1 < bound then some p else none

/-- Match a run of literal (non-space) format characters, as `Sscanf` does:
each must be present verbatim; returns the unconsumed input. -/
def dropLit : List Char → List Char → Option (List Char)
  | [], l => some l
  | p :: ps, c :: cs => if c = p then dropLit ps cs else none
  | _ :: _, [] => none

/-- `fmt.Sscanf(vals[2], "v=%d", &version)`: literal `v=` followed by a
signed integer; trailing unmatched input is not an error for `Sscanf`. -/
def scanVersion (l : List Char) : Option Int :=
  (dropLit ['v', '='] l).bind fun rest => (scanInt rest).map (·.1)

/-- `fmt.Sscanf(vals[3], "m=%d,t=%d,p=%d", &p.memory, &p.iterations,
&p.parallelism)` with `uint32`, `uint32` and `uint8` targets. -/
def scanParams (l : List Char) : Option (Nat × Nat × Nat) :=
  (dropLit ['m', '='] l).bind fun r1 =>
    (scanUintB (2 ^ 32) r1).bind fun pm =>
      (dropLit [',', 't', '='] pm.2).bind fun r2 =>
        (scanUintB (2 ^ 32) r2).bind fun pt =>
          (dropLit [',', 'p', '='] pt.2).bind fun r3 =>
            (scanUintB (2 ^ 8) r3).map fun pp => (pm.1, pt.1, pp.1)

theorem isDigitChar_digitChar (n : Nat) (h : n < 10) : isDigitChar (digitChar n) = true := by
  interval_cases n <;> decide

theorem toNat_digitChar (n : Nat) (h : n < 10) : (digitChar n).toNat = 48 + n := by
  interval_cases n <;> decide

theorem natToCharsCore_zero (fuel : Nat) : natToCharsCore fuel 0 = [] := by
  cases fuel <;> rfl

theorem natToCharsCore_ne_nil (fuel n : Nat) (h0 : 0 < n) (hf : n ≤ fuel) :
    natToCharsCore fuel n ≠ [] := by
  cases fuel with
  | zero => omega
  | succ f =>
    cases n with
    | zero => omega
    | succ m => simp [natToCharsCore]

theorem natToChars_ne_nil (n : Nat) : natToChars n ≠ [] := by
  rw [natToChars]
  split
  · simp
  · exact natToCharsCore_ne_nil n n (by omega) le_rfl

theorem natToCharsCore_all_digits (fuel : Nat) :
    ∀ n, ∀ c ∈ natToCharsCore fuel n, isDigitChar c = true := by
  induction fuel with
  | zero => intro n c hc; simp [natToCharsCore] at hc
  | succ f ih =>
    intro n c hc
    cases n with
    | zero => simp [natToCharsCore] at hc
    | succ m =>
      rw [natToCharsCore] at hc
      rcases List.mem_append.mp hc with h1 | h1
      · exact ih _ c h1
      · simp only [List.mem_singleton] at h1
        exact h1 ▸ isDigitChar_digitChar _ (by omega)

theorem natToChars_all_digits (n : Nat) : ∀ c ∈ natToChars n, isDigitChar c = true := by
  rw [natToChars]
  split
  · intro c hc
    simp only [List.mem_singleton] at hc
    exact hc ▸ isDigitChar_digitChar 0 (by omega)
  · exact natToCharsCore_all_digits n n

theorem parseDigitsAux_natToCharsCore (fuel : Nat) :
    ∀ n acc rest, n ≤ fuel →
      parseDigitsAux (natToCharsCore fuel n ++ rest) acc =
        parseDigitsAux rest (acc * 10 ^ (natToCharsCore fuel n).length + n) := by
  induction fuel with
  | zero =>
    intro n acc rest hn
    have : n = 0 := by omega
    subst this
    simp [natToCharsCore]
  | succ f ih =>
    intro n acc rest hn
    cases n with
    | zero => simp [natToCharsCore_zero]
    | succ m =>
      rw [natToCharsCore]
      simp only [List.append_assoc, List.singleton_append, List.length_append,
        List.length_singleton]
      rw [ih ((m + 1) / 10) acc (digitChar ((m + 1) % 10) :: rest) (by omega)]
      rw [parseDigitsAux, if_pos (isDigitChar_digitChar _ (by omega)),
        toNat_digitChar _ (by omega)]
      congr 1
      have hpow : 10 ^ ((natToCharsCore f ((m + 1) / 10)).length + 1) =
          10 ^ (natToCharsCore f ((m + 1) / 10)).length * 10 := pow_succ 10 _
      rw [hpow, ← Nat.mul_assoc]
      generalize acc * 10 ^ (natToCharsCore f ((m + 1) / 10)).length = k
      omega

theorem parseDigits_natToChars (n : Nat) (rest : List Char)
    (hrest : ∀ c, rest.head? = some c → isDigitChar c = false) :
    parseDigits (natToChars n ++ rest) = some (n, rest) := by
  have hstop : parseDigitsAux rest n = (n, rest) := by
    cases rest with
    | nil => rfl
    | cons c cs =>
      rw [parseDigitsAux, if_neg (by simp [hrest c rfl])]
  rcases Nat.eq_zero_or_pos n with h0 | h0
  · subst h0
    rw [natToChars, if_pos rfl]
    simp only [List.cons_append, List.nil_append]
    rw [parseDigits, if_pos (by decide)]
    rw [show '0'.toNat - 48 = 0 from by decide, hstop]
  · rw [natToChars, if_neg (by omega)]
    cases hn : natToCharsCore n n with
    | nil => exact absurd hn (natToCharsCore_ne_nil n n h0 le_rfl)
    | cons c cs =>
      have hc : isDigitChar c = true :=
        natToCharsCore_all_digits n n c (by rw [hn]; simp)
      have := parseDigitsAux_natToCharsCore n n 0 rest le_rfl
      rw [hn] at this
      simp only [List.cons_append, List.length_cons] at this ⊢
      rw [parseDigits, if_pos hc]
      rw [parseDigitsAux, if_pos hc] at this
      simpa [hstop, Nat.zero_mul] using this

theorem isDigitChar_bounds (c : Char) (h : isDigitChar c = true) :
    48 ≤ c.toNat ∧ c.toNat ≤ 57 := by
  simpa [isDigitChar, Bool.and_eq_true, decide_eq_true_eq] using h

theorem digit_not_space (c : Char) (h : isDigitChar c = true) :
    (c == ' ' || c == '\t') = false := by
  obtain ⟨h1, h2⟩ := isDigitChar_bounds c h
  have hs : c ≠ ' ' := by
    intro e
    subst e
    exact absurd h1 (by decide)
  have ht : c ≠ '\t' := by
    intro e
    subst e
    exact absurd h1 (by decide)
  simp [hs, ht]

theorem digit_ne_plus (c : Char) (h : isDigitChar c = true) : c ≠ '+' := by
  obtain ⟨h1, h2⟩ := isDigitChar_bounds c h
  intro e
  subst e
  exact absurd h1 (by decide)

theorem digit_ne_dollar (c : Char) (h : isDigitChar c = true) : c ≠ '$' := by
  obtain ⟨h1, h2⟩ := isDigitChar_bounds c h
  intro e
  subst e
  exact absurd h1 (by decide)

theorem skipSpaces_digit_head (c : Char) (cs : List Char) (h : isDigitChar c = true) :
    skipSpaces (c :: cs) = c :: cs := by
  unfold skipSpaces
  rw [List.dropWhile_cons, if_neg (by simp [digit_not_space c h])]

theorem scanUintB_natToChars (bound n : Nat) (rest : List Char) (hn : n < bound)
    (hrest : ∀ c, rest.head? = some c → isDigitChar c = false) :
    scanUintB bound (natToChars n ++ rest) = some (n, rest) := by
  cases hnt : natToChars n with
  | nil => exact absurd hnt (natToChars_ne_nil n)
  | cons c cs =>
    have hc : isDigitChar c = true := natToChars_all_digits n c (by rw [hnt]; simp)
    have key : parseDigits (c :: (cs ++ rest)) = some (n, rest) := by
      have h0 := parseDigits_natToChars n rest hrest
      rwa [hnt, List.cons_append] at h0
    simp only [scanUintB, List.cons_append]
    rw [skipSpaces_digit_head c _ hc]
    simp only [List.head?_cons]
    rw [if_neg (by simp [digit_ne_plus c hc]), key]
    simp [hn]

theorem dropLit_self (pat : List Char) : ∀ rest, dropLit pat (pat ++ rest) = some rest := by
  induction pat with
  | nil => intro rest; rfl
  | cons p ps ih =>
    intro rest
    simp only [List.cons_append]
    rw [dropLit, if_pos rfl]
    exact ih rest

/-! ## `strings.Split(encodedHash, "$")` -/

/-- Go's `strings.Split` with the one-character separator `$`. -/
def splitOnDollar : List Char → List (List Char)
  | [] => [[]]
  | c :: rest =>
    if c = '$' then [] :: splitOnDollar rest
    else
      match splitOnDollar rest with
      | h :: t => (c :: h) :: t
      | [] => [[c]]

theorem splitOnDollar_dollar (l : List Char) :
    splitOnDollar ('$' :: l) = [] :: splitOnDollar l := by
  rw [splitOnDollar, if_pos rfl]

theorem splitOnDollar_append_nodollar (a : List Char) (ha : ∀ c ∈ a, c ≠ '$') :
    ∀ l h t, splitOnDollar l = h :: t → splitOnDollar (a ++ l) = (a ++ h) :: t := by
  induction a with
  | nil => intro l h t hl; simpa using hl
  | cons c a' ih =>
    intro l h t hl
    have hc : c ≠ '$' := ha c (by simp)
    rw [List.cons_append, splitOnDollar, if_neg hc]
    rw [ih (fun x hx => ha x (by simp [hx])) l h t hl]
    rfl

theorem splitOnDollar_field (a l : List Char) (ha : ∀ c ∈ a, c ≠ '$') :
    splitOnDollar (a ++ '$' :: l) = a :: splitOnDollar l := by
  have := splitOnDollar_append_nodollar a ha ('$' :: l) [] (splitOnDollar l)
    (splitOnDollar_dollar l)
  simpa using this

theorem splitOnDollar_nodollar (a : List Char) (ha : ∀ c ∈ a, c ≠ '$') :
    splitOnDollar a = [a] := by
  have := splitOnDollar_append_nodollar a ha [] [] [] rfl
  simpa using this

/-! ## The `pwhash` package (argon2id wrapper) -/

/-- Length of the random salt drawn by `HashPassword` (Go `argon2SaltLength`). -/
def argon2SaltLength : Nat := 16

/-- Length of the derived digest (Go `argon2KeyLength`). -/
def argon2KeyLength : Nat := 32

/-- `argon2.Version` of the running implementation (`0x13`). -/
def argon2Version : Nat := 19

/-- Default memory cost (`argon2Memory = 64 * 1024`); `InitArgonParamsFromEnv`
may replace the three cost values at startup, so the embedded functions take
them as explicit arguments. -/
def argon2Memory : Nat := 64 * 1024

/-- Default iteration count (`argon2Iterations`). -/
def argon2Iterations : Nat := 4

/-- Default parallelism (`argon2Parallelism`). -/
def argon2Parallelism : Nat := 1

/-- Error values reachable from `ComparePasswordWithHash`: `ErrInvalidHash`,
`ErrIncompatibleVersion`, an `fmt.Sscanf` scan error, and a base64
`CorruptInputError`. These are four distinct error values in Go as well;
every failure is a returned error value, never a panic. -/
inductive PwErr where
  | invalidHash
  | incompatibleVersion
  | scanError
  | corruptInput
deriving DecidableEq

/-- The `hashParams` struct of the `pwhash` package. -/
structure hashParams where
  memory : Nat
  iterations : Nat
  parallelism : Nat
  saltLength : Nat
  keyLength : Nat
deriving DecidableEq

/-- Type of the external `argon2.IDKey` derivation (`golang.org/x/crypto`):
password bytes, salt, iteration count, memory cost, parallelism, key length.
The library contract is that the result has exactly `keyLength` bytes; that
fact enters the theorems as an explicit hypothesis. -/
abbrev IDKeyFun := List Char → List Nat → Nat → Nat → Nat → Nat → List Nat

/-- `decodeHash`: split on `$`; any field count other than 6 is
`ErrInvalidHash` (the Go code checks `len(vals) != 6` and then indexes
`vals[2..5]`, which is exactly a match on a six-element list); then scan
version and cost parameters and base64-decode salt and digest. The algorithm
tag field (`vals[1]`) is not inspected, exactly as in the source. -/
def decodeHash (encodedHash : List Char) :
    Except PwErr (hashParams × List Nat × List Nat) :=
  match splitOnDollar encodedHash with
  | [_, _, v2, v3, v4, v5] =>
    match scanVersion v2 with
    | none => .error .scanError
    | some version =>
      if version ≠ (argon2Version : Int) then .error .incompatibleVersion
      else
        match scanParams v3 with
        | none => .error .scanError
        | some mtp =>
          match decodeB64 v4 with
          | none => .error .corruptInput
          | some salt =>
            match decodeB64 v5 with
            | none => .error .corruptInput
            | some hash =>
              .ok (⟨mtp.1, mtp.2.1, mtp.2.2, salt.length, hash.length⟩, salt, hash)
  | _ => .error .invalidHash

/-- `subtle.ConstantTimeCompare`: 1 when the two byte slices have equal
length and contents, 0 otherwise. -/
def constantTimeCompare (x y : List Nat) : Nat := if x = y then 1 else 0

/-- `ComparePasswordWithHash`: decode the stored hash, re-derive the digest
with the embedded parameters and salt, compare in constant time. -/
def ComparePasswordWithHash (idKey : IDKeyFun) (encodedHash password : List Char) :
    Except PwErr Bool :=
  match decodeHash encodedHash with
  | .error e => .error e
  | .ok (p, salt, hash) =>
    let otherHash := idKey password salt p.iterations p.memory p.parallelism p.keyLength
    if constantTimeCompare hash otherHash = 1 then .ok true else .ok false

/-- The fixed algorithm tag of the encoded format. -/
def argon2idTag : List Char := ['a', 'r', 'g', 'o', 'n', '2', 'i', 'd']

/-- The `v=%d` field written by `HashPassword`. -/
def versionField : List Char := ['v', '='] ++ natToChars argon2Version

/-- The `m=%d,t=%d,p=%d` field written by `HashPassword`. -/
def paramsField (m t p : Nat) : List Char :=
  ['m', '='] ++ (natToChars m ++ ([',', 't', '='] ++
    (natToChars t ++ ([',', 'p', '='] ++ natToChars p))))

/-- `HashPassword`: derive the digest via `argon2.IDKey` and serialize
`$argon2id$v=%d$m=%d,t=%d,p=%d$<b64 salt>$<b64 digest>`. The salt is the
random byte string drawn by `generateRandomBytes`, passed explicitly here;
the cost parameters are the process-wide configuration values. -/
def HashPassword (idKey : IDKeyFun) (mem iter par : Nat) (salt : List Nat)
    (password : List Char) : List Char :=
  '$' :: (argon2idTag ++ '$' :: (versionField ++ '$' ::
    (paramsField mem iter par ++ '$' :: (encodeB64 salt ++ '$' ::
      encodeB64 (idKey password salt iter mem par argon2KeyLength)))))

theorem natToChars_no_dollar (n : Nat) : ∀ c ∈ natToChars n, c ≠ '$' :=
  fun c hc => digit_ne_dollar c (natToChars_all_digits n c hc)

theorem versionField_no_dollar : ∀ c ∈ versionField, c ≠ '$' := by decide

theorem paramsField_no_dollar (m t p : Nat) : ∀ c ∈ paramsField m t p, c ≠ '$' := by
  intro c hc
  unfold paramsField at hc
  rcases List.mem_append.mp hc with h1 | h1
  · intro e; subst e; exact absurd h1 (by decide)
  rcases List.mem_append.mp h1 with h2 | h2
  · exact natToChars_no_dollar m c h2
  rcases List.mem_append.mp h2 with h3 | h3
  · intro e; subst e; exact absurd h3 (by decide)
  rcases List.mem_append.mp h3 with h4 | h4
  · exact natToChars_no_dollar t c h4
  rcases List.mem_append.mp h4 with h5 | h5
  · intro e; subst e; exact absurd h5 (by decide)
  · exact natToChars_no_dollar p c h5

theorem scanVersion_versionField : scanVersion versionField = some (argon2Version : Int) := by
  decide

theorem head_cons_not_digit (x : Char) (hx : isDigitChar x = false) (xs : List Char) :
    ∀ c, (x :: xs).head? = some c → isDigitChar c = false := by
  intro c h
  simp only [List.head?_cons, Option.some.injEq] at h
  exact h ▸ hx

theorem scanParams_paramsField (m t p : Nat)
    (hm : m < 2 ^ 32) (ht : t < 2 ^ 32) (hp : p < 2 ^ 8) :
    scanParams (paramsField m t p) = some (m, t, p) := by
  unfold scanParams paramsField
  rw [dropLit_self]
  simp only [Option.some_bind]
  rw [show ([',', 't', '='] ++ (natToChars t ++ ([',', 'p', '='] ++ natToChars p))) =
    (',' :: ('t' :: '=' :: (natToChars t ++ ([',', 'p', '='] ++ natToChars p)))) from rfl]
  rw [scanUintB_natToChars _ m _ hm (head_cons_not_digit ',' (by decide) _)]
  simp only [Option.some_bind]
  rw [show (',' :: ('t' :: '=' :: (natToChars t ++ ([',', 'p', '='] ++ natToChars p)))) =
    ([',', 't', '='] ++ (natToChars t ++ ([',', 'p', '='] ++ natToChars p))) from rfl]
  rw [dropLit_self]
  simp only [Option.some_bind]
  rw [show ([',', 'p', '='] ++ natToChars p) = (',' :: ('p' :: '=' :: natToChars p)) from rfl]
  rw [scanUintB_natToChars _ t _ ht (head_cons_not_digit ',' (by decide) _)]
  simp only [Option.some_bind]
  rw [show (',' :: ('p' :: '=' :: natToChars p)) = ([',', 'p', '='] ++ natToChars p) from rfl]
  rw [dropLit_self]
  simp only [Option.some_bind]
  rw [show natToChars p = natToChars p ++ [] from (List.append_nil _).symm]
  rw [scanUintB_natToChars _ p _ hp (by intro c h; simp at h)]
  rfl

theorem splitOnDollar_HashPassword (idKey : IDKeyFun) (mem iter par : Nat)
    (salt : List Nat) (password : List Char)
    (hsb : ∀ x ∈ salt, x < 256)
    (hhb : ∀ x ∈ idKey password salt iter mem par argon2KeyLength, x < 256) :
    splitOnDollar (HashPassword idKey mem iter par salt password) =
      [[], argon2idTag, versionField, paramsField mem iter par, encodeB64 salt,
        encodeB64 (idKey password salt iter mem par argon2KeyLength)] := by
  unfold HashPassword
  rw [splitOnDollar_dollar]
  rw [splitOnDollar_field argon2idTag _ (by decide)]
  rw [splitOnDollar_field versionField _ versionField_no_dollar]
  rw [splitOnDollar_field (paramsField mem iter par) _ (paramsField_no_dollar mem iter par)]
  rw [splitOnDollar_field (encodeB64 salt) _
    (fun c hc e => encodeB64_no_dollar salt hsb (e ▸ hc))]
  rw [splitOnDollar_nodollar _ (fun c hc e => encodeB64_no_dollar _ hhb (e ▸ hc))]

theorem decodeHash_HashPassword (idKey : IDKeyFun) (mem iter par : Nat)
    (salt : List Nat) (password : List Char)
    (hmem : mem < 2 ^ 32) (hiter : iter < 2 ^ 32) (hpar : par < 2 ^ 8)
    (hsb : ∀ x ∈ salt, x < 256)
    (hhb : ∀ x ∈ idKey password salt iter mem par argon2KeyLength, x < 256) :
    decodeHash (HashPassword idKey mem iter par salt password) =
      .ok (⟨mem, iter, par, salt.length,
            (idKey password salt iter mem par argon2KeyLength).length⟩,
           salt, idKey password salt iter mem par argon2KeyLength) := by
  have hsplit := splitOnDollar_HashPassword idKey mem iter par salt password hsb hhb
  simp [decodeHash, hsplit, scanVersion_versionField,
    scanParams_paramsField mem iter par hmem hiter hpar,
    decodeB64_encodeB64 salt hsb, decodeB64_encodeB64 _ hhb]

/-- C3: hashing any password and comparing the password against the produced
encoded hash succeeds, for every salt the hashing step may draw and for any
configured cost parameters (within their Go integer types), given the
`argon2.IDKey` library contract (digest has the requested length and consists
of bytes). -/
theorem hashPassword_compare_roundtrip (idKey : IDKeyFun) (mem iter par : Nat)
    (salt : List Nat) (password : List Char)
    (hmem : mem < 2 ^ 32) (hiter : iter < 2 ^ 32) (hpar : par < 2 ^ 8)
    (hsb : ∀ x ∈ salt, x < 256)
    (hlen : ∀ pwd s i m p kl, (idKey pwd s i m p kl).length = kl)
    (hbytes : ∀ pwd s i m p kl, ∀ x ∈ idKey pwd s i m p kl, x < 256) :
    ComparePasswordWithHash idKey (HashPassword idKey mem iter par salt password)
      password = .ok true := by
  have hhb := hbytes password salt iter mem par argon2KeyLength
  have hd := decodeHash_HashPassword idKey mem iter par salt password hmem hiter hpar hsb hhb
  unfold ComparePasswordWithHash
  rw [hd]
  simp only [hlen password salt iter mem par argon2KeyLength]
  simp [constantTimeCompare]

/-- A concrete stand-in for the external `argon2.IDKey` derivation, used to
instantiate theorems at concrete inputs. -/
def dummyIdKey : IDKeyFun := fun _ _ _ _ _ kl => List.replicate kl 0

theorem hashPassword_compare_roundtrip_witness :
    ComparePasswordWithHash dummyIdKey
      (HashPassword dummyIdKey argon2Memory argon2Iterations argon2Parallelism
        (List.replicate 16 0) ['p', 'w']) ['p', 'w'] = .ok true :=
  hashPassword_compare_roundtrip dummyIdKey argon2Memory argon2Iterations
    argon2Parallelism (List.replicate 16 0) ['p', 'w']
    (by decide) (by decide) (by decide)
    (by intro x hx; have := List.eq_of_mem_replicate hx; omega)
    (by intro pwd s i m p kl; simp [dummyIdKey])
    (by
      intro pwd s i m p kl x hx
      simp only [dummyIdKey] at hx
      have := List.eq_of_mem_replicate hx
      omega)

theorem compare_error_iff (idKey : IDKeyFun) (s pwd : List Char) (e : PwErr) :
    ComparePasswordWithHash idKey s pwd = .error e ↔ decodeHash s = .error e := by
  unfold ComparePasswordWithHash
  cases h : decodeHash s with
  | error e2 => simp
  | ok v =>
    obtain ⟨p, salt, hash⟩ := v
    constructor
    · intro hc
      split at hc
      · rename_i heq
        simp at heq
      · simp only [] at hc
        split at hc <;> simp at hc
    · intro hc
      simp at hc

theorem compare_total (idKey : IDKeyFun) (s pwd : List Char) :
    (∃ e, ComparePasswordWithHash idKey s pwd = .error e) ∨
      ComparePasswordWithHash idKey s pwd = .ok true ∨
      ComparePasswordWithHash idKey s pwd = .ok false := by
  cases h : ComparePasswordWithHash idKey s pwd with
  | error e => exact Or.inl ⟨e, rfl⟩
  | ok b => cases b
            · exact Or.inr (Or.inr rfl)
            · exact Or.inr (Or.inl rfl)

theorem length_eq_six {α : Type _} {l : List α} (h : l.length = 6) :
    ∃ a b c d e f, l = [a, b, c, d, e, f] := by
  rcases l with _ | ⟨a, _ | ⟨b, _ | ⟨c, _ | ⟨d, _ | ⟨e, _ | ⟨f, _ | ⟨g, t⟩⟩⟩⟩⟩⟩⟩
  · simp at h
  · simp at h
  · simp at h
  · simp at h
  · simp at h
  · simp at h
  · exact ⟨a, b, c, d, e, f, rfl⟩
  · simp at h

/-- C4: for every input string offered as an encoded hash,
`ComparePasswordWithHash` returns an error value and never panics:
`ErrInvalidHash` exactly when splitting on `$` does not yield 6 fields,
`ErrIncompatibleVersion` exactly when a version scans but differs from the
running `argon2.Version`, a scan error when the version or parameter field is
garbled, a corrupt-input error when the salt or digest field fails base64
decoding, and in every remaining case a proper `ok` answer (totality — the
embedding is a total function, mirroring that the Go code only ever returns
error values). -/
theorem comparePasswordWithHash_error_taxonomy (idKey : IDKeyFun) (s pwd : List Char) :
    (ComparePasswordWithHash idKey s pwd = .error .invalidHash ↔
      (splitOnDollar s).length ≠ 6) ∧
    (ComparePasswordWithHash idKey s pwd = .error .incompatibleVersion ↔
      (splitOnDollar s).length = 6 ∧
        ∃ v, scanVersion ((splitOnDollar s).getD 2 []) = some v ∧
          v ≠ (argon2Version : Int)) ∧
    ((splitOnDollar s).length = 6 →
      scanVersion ((splitOnDollar s).getD 2 []) = none →
      ComparePasswordWithHash idKey s pwd = .error .scanError) ∧
    ((splitOnDollar s).length = 6 →
      scanVersion ((splitOnDollar s).getD 2 []) = some (argon2Version : Int) →
      scanParams ((splitOnDollar s).getD 3 []) = none →
      ComparePasswordWithHash idKey s pwd = .error .scanError) ∧
    ((splitOnDollar s).length = 6 →
      scanVersion ((splitOnDollar s).getD 2 []) = some (argon2Version : Int) →
      (∃ mtp, scanParams ((splitOnDollar s).getD 3 []) = some mtp) →
      (decodeB64 ((splitOnDollar s).getD 4 []) = none ∨
        decodeB64 ((splitOnDollar s).getD 5 []) = none) →
      ComparePasswordWithHash idKey s pwd = .error .corruptInput) ∧
    ((∃ e, ComparePasswordWithHash idKey s pwd = .error e) ∨
      ComparePasswordWithHash idKey s pwd = .ok true ∨
      ComparePasswordWithHash idKey s pwd = .ok false) := by
  by_cases h6 : (splitOnDollar s).length = 6
  case neg =>
    have hd : decodeHash s = .error .invalidHash := by
      unfold decodeHash
      split
      · rename_i a b c d e f heq
        exact absurd (by rw [heq]; rfl) h6
      · rfl
    exact ⟨by simp [compare_error_iff, hd, h6],
      by simp [compare_error_iff, hd, h6],
      by simp [h6], by simp [h6], by simp [h6],
      compare_total idKey s pwd⟩
  case pos =>
    obtain ⟨f0, f1, f2, f3, f4, f5, hsp⟩ := length_eq_six h6
    cases hv : scanVersion f2 with
    | none =>
      have hd : decodeHash s = .error .scanError := by
        simp [decodeHash, hsp, hv]
      refine ⟨?_, ?_, ?_, ?_, ?_, compare_total idKey s pwd⟩ <;>
        simp [compare_error_iff, hd, hsp, hv]
    | some v =>
      by_cases hveq : v = (argon2Version : Int)
      case neg =>
        have hd : decodeHash s = .error .incompatibleVersion := by
          simp [decodeHash, hsp, hv, hveq]
        refine ⟨?_, ?_, ?_, ?_, ?_, compare_total idKey s pwd⟩ <;>
          simp [compare_error_iff, hd, hsp, hv, hveq]
      case pos =>
        subst hveq
        cases hp : scanParams f3 with
        | none =>
          have hd : decodeHash s = .error .scanError := by
            simp [decodeHash, hsp, hv, hp]
          refine ⟨?_, ?_, ?_, ?_, ?_, compare_total idKey s pwd⟩ <;>
            simp [compare_error_iff, hd, hsp, hv, hp]
        | some mtp =>
          cases h4 : decodeB64 f4 with
          | none =>
            have hd : decodeHash s = .error .corruptInput := by
              simp [decodeHash, hsp, hv, hp, h4]
            refine ⟨?_, ?_, ?_, ?_, ?_, compare_total idKey s pwd⟩ <;>
              simp [compare_error_iff, hd, hsp, hv, hp, h4]
          | some salt =>
            cases h5 : decodeB64 f5 with
            | none =>
              have hd : decodeHash s = .error .corruptInput := by
                simp [decodeHash, hsp, hv, hp, h4, h5]
              refine ⟨?_, ?_, ?_, ?_, ?_, compare_total idKey s pwd⟩ <;>
                simp [compare_error_iff, hd, hsp, hv, hp, h4, h5]
            | some hash =>
              have hd : decodeHash s =
                  .ok (⟨mtp.1, mtp.2.1, mtp.2.2, salt.length, hash.length⟩, salt, hash) := by
                simp [decodeHash, hsp, hv, hp, h4, h5]
              refine ⟨?_, ?_, ?_, ?_, ?_, compare_total idKey s pwd⟩ <;>
                simp [compare_error_iff, hd, hsp, hv, hp, h4, h5]

theorem comparePasswordWithHash_error_taxonomy_witness :
    ComparePasswordWithHash dummyIdKey ['x'] ['p'] = .error .invalidHash :=
  (comparePasswordWithHash_error_taxonomy dummyIdKey ['x'] ['p']).1.mpr (by decide)

/-! ## Attempt tracker (`umUtils`) — modelled from the spec -/

/-- Modelled from the spec: `umUtils.HasMoreAttemptsRecently` is not among the
reviewed source files; §4.2 defines it as `hasExceeded(attempts, maxAllowed,
windowSeconds)`: count entries with timestamp ≥ now − window, true iff the
count is ≥ maxAllowed. `now` is passed explicitly. -/
def HasMoreAttemptsRecently (attempts : List Int) (maxAllowed : Nat)
    (windowSeconds : Int) (now : Int) : Bool :=
  maxAllowed ≤ (attempts.filter fun ts => now - windowSeconds ≤ ts).length

/-- Modelled from the spec: `umUtils.RemoveAttemptsOlderThan` is not among the
reviewed source files; §4.2 defines it as `prune(attempts, windowSeconds)`:
drop entries older than the window. -/
def RemoveAttemptsOlderThan (attempts : List Int) (windowSeconds : Int)
    (now : Int) : List Int :=
  attempts.filter fun ts => now - windowSeconds ≤ ts

/-! ## Handler constants (authentication.go lines 23-30) -/

/-- Window for counting login failures, seconds (`loginFailedAttemptWindow`). -/
def loginFailedAttemptWindow : Int := 5 * 60

/-- Maximum tolerated recent failures (`allowedPasswordAttempts`). -/
def allowedPasswordAttempts : Nat := 10

/-- Window for counting new signups, seconds (`signupRateLimitWindow`). -/
def signupRateLimitWindow : Int := 5 * 60

/-- Resend cooldown for verification emails, seconds
(`emailVerificationMessageCooldown`). -/
def emailVerificationMessageCooldown : Int := 60

/-! ## User data model

The `User` struct and its methods are from the reviewed participant-user
types file; the types of the embedded structs (`Account`, `ContactInfo`,
`Profile`, `ContactPreferences`) live in unreviewed files of the same
package, so their fields are those the reviewed code reads and writes,
as described by §3 of the spec. Go strings are `String` except the password
hash, which is `List Char` to connect with the `pwhash` embedding; Mongo
object ids are plain strings (the code only ever compares their hex form). -/

/-- The pending verification code (`userTypes.VerificationCode`); the
reviewed handlers only ever reset it to its zero value. -/
structure VerificationCode where
  code : String := ""
  attempts : Nat := 0
  createdAt : Int := 0
  expiresAt : Int := 0
deriving DecidableEq

/-- The `Account` sub-struct; `accountType` renders the Go field `Type`
(a reserved word in Lean). -/
structure Account where
  AccountID : String
  Password : List Char
  accountType : String
  AccountConfirmedAt : Int
  VerificationCode : VerificationCode
  FailedLoginAttempts : List Int
  PasswordResetTriggers : List Int
  PreferredLanguage : String
deriving DecidableEq

/-- A `ContactInfo` entry; `contactInfoType` renders the Go field `Type`. -/
structure ContactInfo where
  ID : String
  contactInfoType : String
  ConfirmedAt : Int
  ConfirmationLinkSentAt : Int
  Email : String
  Phone : String
deriving DecidableEq

/-- A `Profile` entry. -/
structure Profile where
  ID : String
  MainProfile : Bool
  CreatedAt : Int
deriving DecidableEq

/-- `ContactPreferences`; only the newsletter recipient list is touched by
the reviewed code. -/
structure ContactPreferences where
  SendNewsletterTo : List String
deriving DecidableEq

/-- The `Timestamps` struct (verbatim from the reviewed types file). -/
structure Timestamps where
  LastTokenRefresh : Int
  LastLogin : Int
  CreatedAt : Int
  UpdatedAt : Int
  LastPasswordChange : Int
  ReminderToConfirmSentAt : Int
  MarkedForDeletion : Int
deriving DecidableEq

/-- The `User` struct (verbatim field list from the reviewed types file). -/
structure User where
  ID : String
  Account : Account
  Timestamps : Timestamps
  Profiles : List Profile
  ContactPreferences : ContactPreferences
  ContactInfos : List ContactInfo
deriving DecidableEq

/-- Loop body of `User.ConfirmContactInfo`: stamp the first entry matching
the type and address, `none` when no entry matches. -/
def confirmContactInfoList (t addr : String) (now : Int) :
    List ContactInfo → Option (List ContactInfo)
  | [] => none
  | ci :: rest =>
    if (t == "email" && ci.Email == addr) || (t == "phone" && ci.Phone == addr) then
      some ({ ci with ConfirmedAt := now } :: rest)
    else (confirmContactInfoList t addr now rest).map (ci :: ·)

/-- `User.ConfirmContactInfo` (sets `ConfirmedAt` to `time.Now().Unix()`,
passed as `now`). -/
def User.ConfirmContactInfo (u : User) (t addr : String) (now : Int) :
    Except String User :=
  match confirmContactInfoList t addr now u.ContactInfos with
  | some cis => .ok { u with ContactInfos := cis }
  | none => .error "contact not found"

/-- Loop body of `User.SetContactInfoVerificationSent`: stamp the first
matching entry; no-op when absent. -/
def setVerificationSentList (t addr : String) (now : Int) :
    List ContactInfo → List ContactInfo
  | [] => []
  | ci :: rest =>
    if (t == "email" && ci.Email == addr) || (t == "phone" && ci.Phone == addr) then
      { ci with ConfirmationLinkSentAt := now } :: rest
    else ci :: setVerificationSentList t addr now rest

/-- `User.SetContactInfoVerificationSent`. -/
def User.SetContactInfoVerificationSent (u : User) (t addr : String) (now : Int) : User :=
  { u with ContactInfos := setVerificationSentList t addr now u.ContactInfos }

/-- Loop body of `User.FindContactInfoByTypeAndAddr`. -/
def findContactInfoList (t addr : String) : List ContactInfo → Option ContactInfo
  | [] => none
  | ci :: rest =>
    if t == "email" && ci.Email == addr then some ci
    else if t == "phone" && ci.Phone == addr then some ci
    else findContactInfoList t addr rest

/-- `User.FindContactInfoByTypeAndAddr`; Go returns `(ContactInfo{}, false)`
when absent, rendered as `Option`. -/
def User.FindContactInfoByTypeAndAddr (u : User) (t addr : String) : Option ContactInfo :=
  findContactInfoList t addr u.ContactInfos

/-- Remove the first occurrence of `id`; the Go loop in
`RemoveContactInfoFromContactPreferences` returns after the first hit. -/
def removeFirstString : List String → String → List String
  | [], _ => []
  | x :: xs, id => if x == id then xs else x :: removeFirstString xs id

/-- `User.RemoveContactInfoFromContactPreferences`. -/
def User.RemoveContactInfoFromContactPreferences (u : User) (id : String) : User :=
  { u with ContactPreferences :=
      { SendNewsletterTo := removeFirstString u.ContactPreferences.SendNewsletterTo id } }

/-- The three ways the `RemoveContactInfo` loop can end. -/
inductive RemoveScan where
  | removed (cis : List ContactInfo)
  | mainAddress
  | notFound
deriving DecidableEq

/-- Loop body of `User.RemoveContactInfo`: find the first entry whose id
matches; refuse when it is the main address, otherwise drop it. -/
def removeContactInfoList (acctType acctID id : String) :
    List ContactInfo → RemoveScan
  | [] => .notFound
  | ci :: rest =>
    if ci.ID == id then
      if acctType == "email" && ci.Email == acctID then .mainAddress
      else .removed rest
    else
      match removeContactInfoList acctType acctID id rest with
      | .removed cis => .removed (ci :: cis)
      | r => r

/-- `User.RemoveContactInfo`: returns the possibly mutated user (the Go
method mutates the receiver through a pointer even on the not-found error
path, where it calls `RemoveContactInfoFromContactPreferences` before
returning the error) together with the error message, `none` on success. -/
def User.RemoveContactInfo (u : User) (id : String) : User × Option String :=
  match removeContactInfoList u.Account.accountType u.Account.AccountID id u.ContactInfos with
  | .mainAddress => (u, some "cannot remove main address")
  | .removed cis => ({ u with ContactInfos := cis }, none)
  | .notFound => (u.RemoveContactInfoFromContactPreferences id, some "contact not found")

/-- A user with a dangling newsletter reference and no contact infos. -/
def userC9 : User :=
  { ID := "u1",
    Account := { AccountID := "a@b.c", Password := [], accountType := "email",
                 AccountConfirmedAt := 0, VerificationCode := {},
                 FailedLoginAttempts := [], PasswordResetTriggers := [],
                 PreferredLanguage := "en" },
    Timestamps := ⟨0, 0, 0, 0, 0, 0, 0⟩,
    Profiles := [],
    ContactPreferences := { SendNewsletterTo := ["c1"] },
    ContactInfos := [] }

/-- C9 counterexample: calling `RemoveContactInfo` for an id that is absent
from the contact infos hits the not-found path, which does execute
`RemoveContactInfoFromContactPreferences`; the newsletter list changes from
`["c1"]` to `[]`, so `RemoveContactInfo` does not always leave
`ContactPreferences.SendNewsletterTo` unchanged. -/
theorem removeContactInfo_changes_preferences :
    (userC9.RemoveContactInfo "c1").2 = some "contact not found" ∧
    userC9.ContactPreferences.SendNewsletterTo = ["c1"] ∧
    (userC9.RemoveContactInfo "c1").1.ContactPreferences.SendNewsletterTo = [] := by
  decide

/-- C9 (amended): the preference-cleanup step is not executed on the path
that removes an entry (the function returns first, so the preferences are
unchanged there) nor on the cannot-remove-main-address path (user entirely
unchanged); it is executed exactly on the not-found path, where the first
occurrence of the id is removed from `SendNewsletterTo` before the error is
returned. -/
theorem removeContactInfo_preferences_effect (u : User) (id : String) :
    ((u.RemoveContactInfo id).2 = none →
      (u.RemoveContactInfo id).1.ContactPreferences = u.ContactPreferences) ∧
    ((u.RemoveContactInfo id).2 = some "cannot remove main address" →
      (u.RemoveContactInfo id).1 = u) ∧
    ((u.RemoveContactInfo id).2 = some "contact not found" →
      (u.RemoveContactInfo id).1 = u.RemoveContactInfoFromContactPreferences id) := by
  unfold User.RemoveContactInfo
  cases h : removeContactInfoList u.Account.accountType u.Account.AccountID id
      u.ContactInfos with
  | removed cis =>
    refine ⟨fun _ => rfl, ?_, ?_⟩ <;> (intro hh; simp at hh)
  | mainAddress =>
    refine ⟨?_, fun _ => rfl, ?_⟩ <;> (intro hh; simp at hh)
  | notFound =>
    refine ⟨?_, ?_, fun _ => rfl⟩ <;> (intro hh; simp at hh)

/-- A user with one removable (non-main) contact info that the newsletter
list references. -/
def userC9b : User :=
  { userC9 with
    ContactInfos := [⟨"c2", "email", 0, 0, "x@y.z", ""⟩],
    ContactPreferences := { SendNewsletterTo := ["c2"] } }

theorem removeContactInfo_preferences_effect_witness :
    (userC9b.RemoveContactInfo "c2").1.ContactPreferences = userC9b.ContactPreferences :=
  (removeContactInfo_preferences_effect userC9b "c2").1 (by decide)

/-! ## The `resendEmailVerification` handler (authentication.go lines 460-513) -/

/-- Response classes of `resendEmailVerification`. -/
inductive ResendResp where
  | badRequest
  | invalidToken
  | emailNotFound
  | tooManyRequests
  | internalError
  | ok
deriving DecidableEq

/-- Observable outcome of `resendEmailVerification`: the response, the
argument passed to `ReplaceUser` (`none` when the store is never written),
whether `prepAndSendEmailVerification` was launched (that goroutine is what
creates a verification token, i.e. consults the token store), and the bound
of a `randomWait` call when one happens. -/
structure ResendOutcome where
  resp : ResendResp
  savedUser : Option User
  emailDispatched : Bool
  delayUpTo : Option Nat
deriving DecidableEq

/-- The `resendEmailVerification` handler. External collaborators are
explicit arguments: `userLookup` is the `GetUser` result (`none` = error),
`replaceOk` tells whether `ReplaceUser` succeeds, `now` is
`time.Now().Unix()`. Request-body binding happens before any logic modelled
here and is omitted. -/
def resendEmailVerification (userLookup : Option User) (reqEmail : String)
    (now : Int) (replaceOk : Bool) : ResendOutcome :=
  match userLookup with
  | none => ⟨.invalidToken, none, false, none⟩
  | some user =>
    match user.FindContactInfoByTypeAndAddr "email" reqEmail with
    | none => ⟨.emailNotFound, none, false, none⟩
    | some ci =>
      if ci.ConfirmationLinkSentAt > now - emailVerificationMessageCooldown then
        ⟨.tooManyRequests, none, false, some 5⟩
      else
        let user1 := user.SetContactInfoVerificationSent "email" reqEmail now
        if replaceOk then ⟨.ok, some user1, true, none⟩
        else ⟨.internalError, some user1, false, none⟩

theorem findContactInfoList_after_set (t addr : String) (now : Int) :
    ∀ cis ci, findContactInfoList t addr cis = some ci →
      findContactInfoList t addr (setVerificationSentList t addr now cis) =
        some { ci with ConfirmationLinkSentAt := now } := by
  intro cis
  induction cis with
  | nil => intro ci h; simp [findContactInfoList] at h
  | cons c rest ih =>
    intro ci h
    rw [findContactInfoList] at h
    rw [setVerificationSentList]
    by_cases h1 : (t == "email" && c.Email == addr) = true
    · rw [if_pos h1] at h
      have hc : c = ci := by simpa using h
      subst hc
      rw [if_pos (by simp [h1])]
      rw [findContactInfoList, if_pos (by simpa using h1)]
    · rw [if_neg h1] at h
      by_cases h2 : (t == "phone" && c.Phone == addr) = true
      · rw [if_pos h2] at h
        have hc : c = ci := by simpa using h
        subst hc
        rw [if_pos (by simp [h2])]
        rw [findContactInfoList, if_neg (by simpa using h1), if_pos (by simpa using h2)]
      · rw [if_neg h2] at h
        rw [if_neg (by simp [h1, h2])]
        rw [findContactInfoList, if_neg (by simpa using h1), if_neg (by simpa using h2)]
        exact ih ci h

/-- C8: with the contact found and its last verification-sent timestamp
inside the 60-second cooldown, the request is rejected with the throttling
response and a randomized delay, without writing the user back (so the
timestamp is not updated) and without launching the email/token path; outside
the window, the user is written back with the timestamp set to now before the
email dispatch is launched. -/
theorem resendEmailVerification_cooldown (user : User) (reqEmail : String)
    (now : Int) (replaceOk : Bool) (ci : ContactInfo)
    (hfind : user.FindContactInfoByTypeAndAddr "email" reqEmail = some ci) :
    (ci.ConfirmationLinkSentAt > now - emailVerificationMessageCooldown →
      resendEmailVerification (some user) reqEmail now replaceOk =
        ⟨.tooManyRequests, none, false, some 5⟩) ∧
    (¬ ci.ConfirmationLinkSentAt > now - emailVerificationMessageCooldown →
      replaceOk = true →
      resendEmailVerification (some user) reqEmail now replaceOk =
        ⟨.ok, some (user.SetContactInfoVerificationSent "email" reqEmail now),
          true, none⟩ ∧
      (user.SetContactInfoVerificationSent "email" reqEmail
          now).FindContactInfoByTypeAndAddr "email" reqEmail =
        some { ci with ConfirmationLinkSentAt := now }) := by
  constructor
  · intro hcool
    simp [resendEmailVerification, hfind, hcool]
  · intro hcool hrep
    refine ⟨by simp [resendEmailVerification, hfind, hcool, hrep], ?_⟩
    have hfind2 : findContactInfoList "email" reqEmail user.ContactInfos = some ci := hfind
    simpa [User.FindContactInfoByTypeAndAddr, User.SetContactInfoVerificationSent]
      using findContactInfoList_after_set "email" reqEmail now user.ContactInfos ci hfind2

/-- A user whose single contact was sent a verification mail 20 seconds ago. -/
def userC8 : User :=
  { userC9 with
    ContactInfos := [⟨"c3", "email", 0, 100, "a@b.c", ""⟩] }

theorem resendEmailVerification_cooldown_witness :
    resendEmailVerification (some userC8) "a@b.c" 120 true =
      ⟨.tooManyRequests, none, false, some 5⟩ :=
  (resendEmailVerification_cooldown userC8 "a@b.c" 120 true
    ⟨"c3", "email", 0, 100, "a@b.c", ""⟩ (by decide)).1 (by decide)

/-! ## The `loginWithEmail` handler (authentication.go lines 59-186) -/

/-- Modelled from the spec: `umUtils.GetMainAndOtherProfiles` is not among the
reviewed files; it selects the id of the profile flagged "main" (§3: exactly
one per account) and the ids of the remaining profiles. -/
def GetMainAndOtherProfiles (u : User) : String × List String :=
  (((u.Profiles.find? (·.MainProfile)).map (·.ID)).getD "",
   (u.Profiles.filter fun p => !p.MainProfile).map (·.ID))

/-- Response classes of `loginWithEmail`; `ok` carries the payload fields of
the 200 response body. -/
inductive LoginResp where
  | badRequest
  | invalidInstance
  | unauthorized
  | internalError
  | ok (user : User) (accessToken refreshToken selectedProfile : String)
deriving DecidableEq

/-- Whether a login response is the 200 success response. -/
def LoginResp.isOk : LoginResp → Bool
  | .ok _ _ _ _ => true
  | _ => false

/-- Observable outcome of `loginWithEmail`: the response;
`passwordChecked` records whether `ComparePasswordWithHash` was reached;
`failedAttemptSaved` whether `SaveFailedLoginAttempt` was called;
`delayUpTo` the bound of a `randomWait` call when one happens;
`savedUser` the argument passed to `ReplaceUser` (`none` when that write is
never reached); `renewTokenCreated` the token given to `CreateRenewToken`. -/
structure LoginOutcome where
  resp : LoginResp
  passwordChecked : Bool
  failedAttemptSaved : Bool
  delayUpTo : Option Nat
  savedUser : Option User
  renewTokenCreated : Option String
deriving DecidableEq

/-- Store and crypto collaborators of `loginWithEmail`, passed explicitly:
`userLookup` is the `GetUserByAccountID` result for the (sanitized) request
email (`none` = not found / store error); `jwt` the result of
`GenerateNewParticipantUserToken`; `freshRenewToken` the result of
`GenerateUniqueTokenString`; the booleans tell whether the corresponding
store writes succeed. -/
structure LoginEnv where
  instanceAllowed : Bool
  userLookup : Option User
  now : Int
  jwt : Option String
  freshRenewToken : Option String
  createRenewOk : Bool
  replaceOk : Bool
deriving DecidableEq

/-- The `loginWithEmail` handler. The email sanitization step
(`umUtils.SanitizeEmail`) only normalizes the string used for the lookup and
is folded into the `userLookup` oracle; the deletion of password-reset temp
tokens after the user write is fire-and-log and carries no modelled state. -/
def loginWithEmail (idKey : IDKeyFun) (env : LoginEnv) (reqEmail : String)
    (reqPassword : List Char) (reqInstanceID : String) : LoginOutcome :=
  if reqEmail = "" ∨ reqPassword = [] ∨ reqInstanceID = "" then
    ⟨.badRequest, false, false, none, none, none⟩
  else if ¬ env.instanceAllowed then
    ⟨.invalidInstance, false, false, none, none, none⟩
  else
    match env.userLookup with
    | none => ⟨.unauthorized, false, false, none, none, none⟩
    | some user =>
      if HasMoreAttemptsRecently user.Account.FailedLoginAttempts
          allowedPasswordAttempts loginFailedAttemptWindow env.now then
        ⟨.unauthorized, false, true, some 5, none, none⟩
      else
        match ComparePasswordWithHash idKey user.Account.Password reqPassword with
        | .error _ => ⟨.unauthorized, true, true, some 10, none, none⟩
        | .ok false => ⟨.unauthorized, true, true, some 10, none, none⟩
        | .ok true =>
          match env.jwt with
          | none => ⟨.internalError, true, false, none, none, none⟩
          | some jwt =>
            match env.freshRenewToken with
            | none => ⟨.internalError, true, false, none, none, none⟩
            | some renewToken =>
              if ¬ env.createRenewOk then
                ⟨.internalError, true, false, none, none, none⟩
              else
                let user1 := { user with
                  Timestamps := { user.Timestamps with
                    LastLogin := env.now, MarkedForDeletion := 0 },
                  Account := { user.Account with
                    VerificationCode := {},
                    FailedLoginAttempts :=
                      RemoveAttemptsOlderThan user.Account.FailedLoginAttempts
                        3600 env.now,
                    PasswordResetTriggers :=
                      RemoveAttemptsOlderThan user.Account.PasswordResetTriggers
                        7200 env.now } }
                if ¬ env.replaceOk then
                  ⟨.internalError, true, false, none, some user1, some renewToken⟩
                else
                  let user2 := { user1 with
                    Account := { user1.Account with
                      Password := [], VerificationCode := {} } }
                  ⟨.ok user2 jwt renewToken (GetMainAndOtherProfiles user).1,
                    true, false, none, some user1, some renewToken⟩

/-- C5: with the handler constants (window 300 seconds, maximum 10), a login
request for an account whose failed-attempt list holds 10 or more entries
inside the window is rejected as throttled without reaching the password
comparison (and with a failed attempt recorded plus a randomized delay); a
list holding exactly 9 such entries passes the throttle gate and the password
is checked; and entries older than the window never influence the throttle
decision. -/
theorem loginWithEmail_throttle (idKey : IDKeyFun) (env : LoginEnv)
    (reqEmail : String) (reqPassword : List Char) (reqInstanceID : String)
    (user : User)
    (hemail : reqEmail ≠ "") (hpw : reqPassword ≠ []) (hinst : reqInstanceID ≠ "")
    (hallow : env.instanceAllowed = true) (huser : env.userLookup = some user) :
    loginFailedAttemptWindow = 300 ∧ allowedPasswordAttempts = 10 ∧
    (10 ≤ (user.Account.FailedLoginAttempts.filter fun ts =>
        env.now - loginFailedAttemptWindow ≤ ts).length →
      loginWithEmail idKey env reqEmail reqPassword reqInstanceID =
        ⟨.unauthorized, false, true, some 5, none, none⟩) ∧
    ((user.Account.FailedLoginAttempts.filter fun ts =>
        env.now - loginFailedAttemptWindow ≤ ts).length = 9 →
      (loginWithEmail idKey env reqEmail reqPassword reqInstanceID).passwordChecked
        = true) ∧
    (∀ old : List Int, (∀ t ∈ old, t < env.now - loginFailedAttemptWindow) →
      HasMoreAttemptsRecently (old ++ user.Account.FailedLoginAttempts)
          allowedPasswordAttempts loginFailedAttemptWindow env.now =
        HasMoreAttemptsRecently user.Account.FailedLoginAttempts
          allowedPasswordAttempts loginFailedAttemptWindow env.now) := by
  refine ⟨by norm_num [loginFailedAttemptWindow], rfl, ?_, ?_, ?_⟩
  · intro hcount
    have hth : HasMoreAttemptsRecently user.Account.FailedLoginAttempts
        allowedPasswordAttempts loginFailedAttemptWindow env.now = true := by
      simp only [HasMoreAttemptsRecently, allowedPasswordAttempts,
        decide_eq_true_eq]
      exact hcount
    simp [loginWithEmail, hemail, hpw, hinst, hallow, huser, hth]
  · intro h9
    have hth : HasMoreAttemptsRecently user.Account.FailedLoginAttempts
        allowedPasswordAttempts loginFailedAttemptWindow env.now = false := by
      simp only [HasMoreAttemptsRecently, allowedPasswordAttempts, h9]
      decide
    simp only [loginWithEmail, hallow, huser, hth]
    rw [if_neg (by simp [hemail, hpw, hinst])]
    cases hcmp : ComparePasswordWithHash idKey user.Account.Password reqPassword with
    | error e => simp
    | ok b =>
      cases b with
      | false => simp
      | true =>
        cases hj : env.jwt with
        | none => simp
        | some jwt =>
          cases hf : env.freshRenewToken with
          | none => simp
          | some rt =>
            by_cases hcr : env.createRenewOk = true
            · by_cases hrp : env.replaceOk = true
              · simp [hcr, hrp]
              · simp [hcr, hrp]
            · simp [hcr]
  · intro old hold
    unfold HasMoreAttemptsRecently
    rw [List.filter_append]
    have hnil : (old.filter fun ts =>
        decide (env.now - loginFailedAttemptWindow ≤ ts)) = [] := by
      rw [List.filter_eq_nil_iff]
      intro t ht
      simpa using not_le.mpr (hold t ht)
    rw [hnil, List.nil_append]

/-- A user with ten recent failed login attempts. -/
def userC5 : User :=
  { userC9 with
    Account := { userC9.Account with
      FailedLoginAttempts := [1000, 1000, 1000, 1000, 1000, 1000, 1000, 1000, 1000, 1000] } }

/-- An environment where the user is found in an allowed instance. -/
def envC5 : LoginEnv :=
  { instanceAllowed := true, userLookup := some userC5, now := 1000,
    jwt := some "jwt", freshRenewToken := some "rt",
    createRenewOk := true, replaceOk := true }

theorem loginWithEmail_throttle_witness :
    loginWithEmail dummyIdKey envC5 "a@b.c" ['p'] "inst" =
      ⟨.unauthorized, false, true, some 5, none, none⟩ :=
  (loginWithEmail_throttle dummyIdKey envC5 "a@b.c" ['p'] "inst" userC5
    (by decide) (by decide) (by decide) (by decide) (by decide)).2.2.1 (by decide)

/-- A concrete stored password hash produced with the stand-in derivation. -/
def hashedPw : List Char :=
  HashPassword dummyIdKey argon2Memory argon2Iterations argon2Parallelism
    (List.replicate 16 0) ['p', 'w']

/-- A user with the concrete hash and one failed-login entry 1000 seconds
before the login below. -/
def userC7 : User :=
  { userC9 with
    Account := { userC9.Account with
      Password := hashedPw,
      FailedLoginAttempts := [1999000] } }

/-- Environment for a successful login of `userC7` at time 2000000. -/
def envC7 : LoginEnv :=
  { instanceAllowed := true, userLookup := some userC7, now := 2000000,
    jwt := some "jwt", freshRenewToken := some "rt",
    createRenewOk := true, replaceOk := true }

/-- C7 counterexample: a successful login writes the account back with a
failed-login entry from 1000 seconds ago still present — older than the
300-second login-failure window. The write-back prunes the failed-login list
with a hard-coded 3600-second window (and the reset-trigger list with 7200),
not with the 300-second throttle window. -/
theorem loginWithEmail_retains_stale_attempt :
    (loginWithEmail dummyIdKey envC7 "a@b.c" ['p', 'w'] "inst").resp.isOk = true ∧
    ((loginWithEmail dummyIdKey envC7 "a@b.c" ['p', 'w'] "inst").savedUser.map
      fun u => u.Account.FailedLoginAttempts) = some [(1999000 : Int)] ∧
    (1999000 : Int) < 2000000 - loginFailedAttemptWindow := by
  refine ⟨by decide, by decide, by decide⟩

/-- C7 (amended): on the successful-login path the account written back via
`ReplaceUser` has its failed-login attempt list pruned with the 3600-second
window and its password-reset-trigger list with the 7200-second window; no
retained entry is older than those bounds. The 300-second constant governs
only the throttle count, not retention. -/
theorem loginWithEmail_savedUser_pruned (idKey : IDKeyFun) (env : LoginEnv)
    (reqEmail : String) (reqPassword : List Char) (reqInstanceID : String)
    (hok : (loginWithEmail idKey env reqEmail reqPassword reqInstanceID).resp.isOk
      = true) :
    ∃ u1, (loginWithEmail idKey env reqEmail reqPassword reqInstanceID).savedUser
        = some u1 ∧
      (∀ t ∈ u1.Account.FailedLoginAttempts, env.now - 3600 ≤ t) ∧
      (∀ t ∈ u1.Account.PasswordResetTriggers, env.now - 7200 ≤ t) := by
  revert hok
  simp only [loginWithEmail]
  repeat' split
  all_goals intro hok
  all_goals try simp [LoginResp.isOk] at hok
  refine ⟨_, rfl, ?_, ?_⟩
  · intro t ht
    simp only [RemoveAttemptsOlderThan] at ht
    simpa using List.of_mem_filter ht
  · intro t ht
    simp only [RemoveAttemptsOlderThan] at ht
    simpa using List.of_mem_filter ht

theorem loginWithEmail_savedUser_pruned_witness :
    ∃ u1, (loginWithEmail dummyIdKey envC7 "a@b.c" ['p', 'w'] "inst").savedUser
        = some u1 ∧
      (∀ t ∈ u1.Account.FailedLoginAttempts, (2000000 : Int) - 3600 ≤ t) ∧
      (∀ t ∈ u1.Account.PasswordResetTriggers, (2000000 : Int) - 7200 ≤ t) :=
  loginWithEmail_savedUser_pruned dummyIdKey envC7 "a@b.c" ['p', 'w'] "inst"
    (by decide)

/-! ## The `signupWithEmail` handler (authentication.go lines 196-339) -/

/-- Modelled from the spec: `umUtils.InitNewEmailUser` is not among the
reviewed files; per §3 it creates the account record for an email signup:
account kind "email", the given identifier and password hash, unconfirmed
(confirmed-at 0), one main profile, the preferred language and the creation
timestamp. -/
def InitNewEmailUser (email : String) (passwordHash : List Char) (lang : String)
    (now : Int) : User :=
  { ID := "",
    Account := { AccountID := email, Password := passwordHash,
                 accountType := "email", AccountConfirmedAt := 0,
                 VerificationCode := {}, FailedLoginAttempts := [],
                 PasswordResetTriggers := [], PreferredLanguage := lang },
    Timestamps := { LastTokenRefresh := 0, LastLogin := 0, CreatedAt := now,
                    UpdatedAt := 0, LastPasswordChange := 0,
                    ReminderToConfirmSentAt := 0, MarkedForDeletion := 0 },
    Profiles := [{ ID := "", MainProfile := true, CreatedAt := now }],
    ContactPreferences := { SendNewsletterTo := [] },
    ContactInfos := [] }

/-- Response classes of `signupWithEmail`. -/
inductive SignupResp where
  | badRequest
  | invalidRequest
  | invalidInstance
  | invalidEmailFormat
  | invalidPasswordFormat
  | invalidLanguage
  | internalError
  | tooManyRequests
  | ok (user : User) (accessToken refreshToken selectedProfile : String)
deriving DecidableEq

/-- Whether a signup response is the 200 success response. -/
def SignupResp.isOk : SignupResp → Bool
  | .ok _ _ _ _ => true
  | _ => false

/-- Observable outcome of `signupWithEmail`: the response, whether the
`AddUser` insertion was called, and the bound of a `randomWait` call. -/
structure SignupOutcome where
  resp : SignupResp
  userInserted : Bool
  delayUpTo : Option Nat
deriving DecidableEq

/-- Collaborators of `signupWithEmail`: the format checks
(`umUtils.CheckEmailFormat` and friends) are external validators rendered as
booleans; `newUserCount` is the `CountRecentlyCreatedUsers` result (`none` =
store error); `hashSalt` the salt drawn inside `HashPassword` (`none` =
random-source error); `addUserOk`/`newUserId` the `AddUser` outcome; the
rest as in `LoginEnv`. `mem`, `iter` and `par` are the process-wide argon2
cost parameters. -/
structure SignupEnv where
  instanceAllowed : Bool
  emailFormatOk : Bool
  passwordFormatOk : Bool
  languageOk : Bool
  newUserCount : Option Int
  maxNewUsersPer5Minute : Nat
  hashSalt : Option (List Nat)
  addUserOk : Bool
  newUserId : String
  jwt : Option String
  freshRenewToken : Option String
  createRenewOk : Bool
  mem : Nat
  iter : Nat
  par : Nat
deriving DecidableEq

/-- The `signupWithEmail` handler. The email-verification dispatch runs in a
goroutine right after the insertion and carries no modelled state. -/
def signupWithEmail (idKey : IDKeyFun) (env : SignupEnv) (reqEmail : String)
    (reqPassword : List Char) (reqInstanceID reqInfoCheck reqLang : String)
    (now : Int) : SignupOutcome :=
  if reqEmail = "" ∨ reqPassword = [] ∨ reqInstanceID = "" then
    ⟨.badRequest, false, none⟩
  else if reqInfoCheck ≠ "" then ⟨.invalidRequest, false, some 5⟩
  else if ¬ env.instanceAllowed then ⟨.invalidInstance, false, none⟩
  else if ¬ env.emailFormatOk then ⟨.invalidEmailFormat, false, none⟩
  else if ¬ env.passwordFormatOk then ⟨.invalidPasswordFormat, false, none⟩
  else if ¬ env.languageOk then ⟨.invalidLanguage, false, none⟩
  else
    match env.newUserCount with
    | none => ⟨.internalError, false, none⟩
    | some newUserCount =>
      if newUserCount ≥ (env.maxNewUsersPer5Minute : Int) then
        ⟨.tooManyRequests, false, some 5⟩
      else
        match env.hashSalt with
        | none => ⟨.internalError, false, none⟩
        | some salt =>
          let password := HashPassword idKey env.mem env.iter env.par salt reqPassword
          let newUser := InitNewEmailUser reqEmail password reqLang now
          if ¬ env.addUserOk then ⟨.internalError, true, some 5⟩
          else
            let newUser := { newUser with ID := env.newUserId }
            match env.jwt with
            | none => ⟨.internalError, true, none⟩
            | some jwt =>
              match env.freshRenewToken with
              | none => ⟨.internalError, true, none⟩
              | some renewToken =>
                if ¬ env.createRenewOk then ⟨.internalError, true, none⟩
                else
                  let newUser2 := { newUser with
                    Account := { newUser.Account with
                      Password := [], VerificationCode := {} } }
                  ⟨.ok newUser2 jwt renewToken (GetMainAndOtherProfiles newUser).1,
                    true, none⟩

/-- C6: when the count of recently created users reaches or exceeds the
configured five-minute cap, signup answers with the rate-limited response
(plus a randomized delay) and the `AddUser` insertion step is never
reached. -/
theorem signupWithEmail_rate_limited (idKey : IDKeyFun) (env : SignupEnv)
    (reqEmail : String) (reqPassword : List Char)
    (reqInstanceID reqInfoCheck reqLang : String) (now : Int) (n : Int)
    (hemail : reqEmail ≠ "") (hpw : reqPassword ≠ []) (hinst : reqInstanceID ≠ "")
    (hcheck : reqInfoCheck = "") (hallow : env.instanceAllowed = true)
    (hef : env.emailFormatOk = true) (hpf : env.passwordFormatOk = true)
    (hlang : env.languageOk = true)
    (hcount : env.newUserCount = some n)
    (hcap : n ≥ (env.maxNewUsersPer5Minute : Int)) :
    signupWithEmail idKey env reqEmail reqPassword reqInstanceID reqInfoCheck
        reqLang now = ⟨.tooManyRequests, false, some 5⟩ := by
  simp [signupWithEmail, hemail, hpw, hinst, hcheck, hallow, hef, hpf, hlang,
    hcount, hcap]

/-- A signup environment at the cap. -/
def envC6 : SignupEnv :=
  { instanceAllowed := true, emailFormatOk := true, passwordFormatOk := true,
    languageOk := true, newUserCount := some 100, maxNewUsersPer5Minute := 100,
    hashSalt := some (List.replicate 16 0), addUserOk := true, newUserId := "id1",
    jwt := some "jwt", freshRenewToken := some "rt", createRenewOk := true,
    mem := 65536, iter := 4, par := 1 }

theorem signupWithEmail_rate_limited_witness :
    signupWithEmail dummyIdKey envC6 "a@b.c" ['p'] "inst" "" "en" 1000 =
      ⟨.tooManyRequests, false, some 5⟩ :=
  signupWithEmail_rate_limited dummyIdKey envC6 "a@b.c" ['p'] "inst" "" "en"
    1000 100 (by decide) (by decide) (by decide) rfl rfl rfl rfl rfl rfl
    (by decide)

/-! ## Refresh-token ledger and the `refreshToken` handler
(authentication.go lines 341-443) -/

/-- A refresh-token ledger record (`userTypes.RenewToken`): the opaque
"current" token, the staged "next" token (empty string = none staged yet)
and an expiry. -/
structure RenewTokenRec where
  UserID : String
  RenewToken : String
  NextToken : String
  ExpiresAt : Int
deriving DecidableEq

/-- Modelled from the spec: the ledger store's `CreateRenewToken` is not
among the reviewed files; §4.4 `create` inserts a new ledger record for the
token with no staged next, and fails on token collision. -/
def CreateRenewToken (ledger : List RenewTokenRec) (userID token : String) :
    Option (List RenewTokenRec) :=
  if ledger.any fun r => r.RenewToken == token then none
  else some (ledger ++ [{ UserID := userID, RenewToken := token,
                          NextToken := "", ExpiresAt := 0 }])

/-- First record whose "current" token equals the supplied token; when its
next slot is empty the candidate is staged there (the conditional part of
the atomic find-and-modify). -/
def findAndUpdateCurrent (supplied cand : String) :
    List RenewTokenRec → Option (RenewTokenRec × List RenewTokenRec)
  | [] => none
  | r :: rest =>
    if r.RenewToken == supplied then
      if r.NextToken == "" then
        let r2 := { r with NextToken := cand }
        some (r2, r2 :: rest)
      else some (r, r :: rest)
    else
      (findAndUpdateCurrent supplied cand rest).map fun x => (x.1, r :: x.2)

/-- First record whose staged "next" token equals the supplied token. -/
def findByNext (supplied : String) : List RenewTokenRec → Option RenewTokenRec
  | [] => none
  | r :: rest => if r.NextToken == supplied then some r else findByNext supplied rest

/-- Modelled from the spec: the ledger store's `FindAndUpdateRenewToken`
(the atomic `rotate` of §4.4) is not among the reviewed files. If the
supplied token equals a stored "current" token: when no "next" is staged the
candidate is adopted and staged, otherwise the record is returned unchanged
so the already staged "next" is promoted and served again. Else, if the
supplied token equals a staged "next" token, the record is returned
unchanged (idempotent re-serve of the already promoted token). Else there is
no match and the operation fails — the replay/theft signal. -/
def FindAndUpdateRenewToken (ledger : List RenewTokenRec) (supplied cand : String) :
    Option (RenewTokenRec × List RenewTokenRec) :=
  match findAndUpdateCurrent supplied cand ledger with
  | some res => some res
  | none => (findByNext supplied ledger).map fun r => (r, ledger)

/-- Response classes of `refreshToken`. -/
inductive RefreshResp where
  | badRequest
  | unauthorized
  | internalError
  | ok (user : User) (accessToken refreshToken selectedProfile : String)
deriving DecidableEq

/-- Whether a refresh response is the 200 success response. -/
def RefreshResp.isOk : RefreshResp → Bool
  | .ok _ _ _ _ => true
  | _ => false

/-- The refresh token served by a 200 response, `none` otherwise. -/
def RefreshResp.servedToken : RefreshResp → Option String
  | .ok _ _ rt _ => some rt
  | _ => none

/-- Observable outcome of `refreshToken`: the response;
`freshTokenGenerated` records whether `GenerateUniqueTokenString` ran (the
handler generates the candidate before consulting the ledger);
`insertedFresh` whether a record for the fresh candidate was inserted via
`CreateRenewToken`; `ledger` the final ledger state. -/
structure RefreshOutcome where
  resp : RefreshResp
  freshTokenGenerated : Bool
  insertedFresh : Bool
  ledger : List RenewTokenRec
deriving DecidableEq

/-- Collaborators of `refreshToken`: `userLookup` is the `GetUser` result for
the token subject; `freshToken` the `GenerateUniqueTokenString` result;
`ledger` the user's slice of the renew-token store; `updateUserOk` whether
the timestamp `UpdateUser` write succeeds; `jwt` the new session token. -/
structure RefreshEnv where
  userLookup : Option User
  freshToken : Option String
  ledger : List RenewTokenRec
  updateUserOk : Bool
  jwt : Option String
deriving DecidableEq

/-- The `refreshToken` handler. `subject` is the JWT subject (used as the
user id for the ledger insert); the request-body binding step is omitted as
before. On a ledger error (no record matched) the handler answers 500 and
returns before any session token is issued. -/
def refreshToken (env : RefreshEnv) (suppliedToken subject : String) :
    RefreshOutcome :=
  match env.userLookup with
  | none => ⟨.unauthorized, false, false, env.ledger⟩
  | some user =>
    match env.freshToken with
    | none => ⟨.internalError, false, false, env.ledger⟩
    | some newRenewToken =>
      match FindAndUpdateRenewToken env.ledger suppliedToken newRenewToken with
      | none => ⟨.internalError, true, false, env.ledger⟩
      | some (rt, ledger1) =>
        match
          (if rt.NextToken == newRenewToken then
            match CreateRenewToken ledger1 subject newRenewToken with
            | none => none
            | some ledger2 => some (newRenewToken, ledger2, true)
          else some (rt.NextToken, ledger1, false)) with
        | none => ⟨.internalError, true, false, ledger1⟩
        | some (served, ledger2, inserted) =>
          if ¬ env.updateUserOk then ⟨.internalError, true, inserted, ledger2⟩
          else
            match env.jwt with
            | none => ⟨.internalError, true, inserted, ledger2⟩
            | some jwt =>
              let user2 := { user with
                Account := { user.Account with
                  Password := [], VerificationCode := {} } }
              ⟨.ok user2 jwt served (GetMainAndOtherProfiles user).1,
                true, inserted, ledger2⟩

theorem findAndUpdateCurrent_none (supplied cand : String) :
    ∀ l : List RenewTokenRec, (∀ r ∈ l, r.RenewToken ≠ supplied) →
      findAndUpdateCurrent supplied cand l = none := by
  intro l
  induction l with
  | nil => intro _; rfl
  | cons r rest ih =>
    intro h
    rw [findAndUpdateCurrent, if_neg (by simp [h r (by simp)])]
    rw [ih fun x hx => h x (by simp [hx])]
    rfl

theorem findByNext_none (supplied : String) :
    ∀ l : List RenewTokenRec, (∀ r ∈ l, r.NextToken ≠ supplied) →
      findByNext supplied l = none := by
  intro l
  induction l with
  | nil => intro _; rfl
  | cons r rest ih =>
    intro h
    rw [findByNext, if_neg (by simp [h r (by simp)])]
    exact ih fun x hx => h x (by simp [hx])

theorem findByNext_eq (supplied : String) :
    ∀ l : List RenewTokenRec, ∀ r, findByNext supplied l = some r →
      r.NextToken = supplied := by
  intro l
  induction l with
  | nil => intro r h; simp [findByNext] at h
  | cons x rest ih =>
    intro r h
    rw [findByNext] at h
    by_cases hx : (x.NextToken == supplied) = true
    · rw [if_pos hx] at h
      have : x = r := by simpa using h
      subst this
      simpa using hx
    · rw [if_neg hx] at h
      exact ih r h

/-- C1: when the supplied refresh token matches neither a stored "current"
token nor a staged "next" token for the user, the ledger operation reports
no match, the handler answers with the internal-error failure response, no
session token is issued and the ledger is left unchanged (nothing inserted). -/
theorem refreshToken_replay_rejected (env : RefreshEnv)
    (suppliedToken subject : String) (user : User) (cand : String)
    (huser : env.userLookup = some user) (hfresh : env.freshToken = some cand)
    (hmatch : ∀ r ∈ env.ledger, r.RenewToken ≠ suppliedToken ∧
      r.NextToken ≠ suppliedToken) :
    refreshToken env suppliedToken subject =
      ⟨.internalError, true, false, env.ledger⟩ ∧
    (refreshToken env suppliedToken subject).resp.isOk = false := by
  have hfu : FindAndUpdateRenewToken env.ledger suppliedToken cand = none := by
    unfold FindAndUpdateRenewToken
    rw [findAndUpdateCurrent_none suppliedToken cand env.ledger
      (fun r hr => (hmatch r hr).1)]
    rw [findByNext_none suppliedToken env.ledger (fun r hr => (hmatch r hr).2)]
    rfl
  have hmain : refreshToken env suppliedToken subject =
      ⟨.internalError, true, false, env.ledger⟩ := by
    simp [refreshToken, huser, hfresh, hfu]
  exact ⟨hmain, by rw [hmain]; rfl⟩

/-- A one-record ledger where "T1" is staged as next for current "T0". -/
def ledgerC1 : List RenewTokenRec :=
  [{ UserID := "u1", RenewToken := "T0", NextToken := "T1", ExpiresAt := 0 }]

/-- Environment for refresh calls against `ledgerC1`. -/
def envC1 : RefreshEnv :=
  { userLookup := some userC9, freshToken := some "C", ledger := ledgerC1,
    updateUserOk := true, jwt := some "jwt" }

theorem refreshToken_replay_rejected_witness :
    refreshToken envC1 "T9" "u1" = ⟨.internalError, true, false, ledgerC1⟩ :=
  (refreshToken_replay_rejected envC1 "T9" "u1" userC9 "C" rfl rfl
    (by decide)).1

/-- C2 counterexample: in the retry scenario the claim describes — the
supplied token equals the staged "next" token — the handler does serve the
already promoted token idempotently and inserts nothing, but it has already
generated a fresh candidate token before consulting the ledger
(authentication.go line 364 runs unconditionally), so the claim's "no fresh
token is generated" is false. -/
theorem refreshToken_generates_candidate_on_retry :
    (refreshToken envC1 "T1" "u1").freshTokenGenerated = true ∧
    (refreshToken envC1 "T1" "u1").resp.isOk = true ∧
    (refreshToken envC1 "T1" "u1").resp.servedToken = some "T1" ∧
    (refreshToken envC1 "T1" "u1").insertedFresh = false ∧
    (refreshToken envC1 "T1" "u1").ledger = ledgerC1 := by
  refine ⟨by decide, by decide, by decide, by decide, by decide⟩

/-- C2 (amended): when the supplied token equals a staged "next" token (and
matches no "current" token), the already promoted token is re-served
idempotently: the response is the 200 success serving exactly the supplied
token, nothing is inserted into the ledger and the ledger is unchanged,
and the request is not treated as a replay — even though a fresh candidate
token string was generated, it is discarded rather than served or stored. -/
theorem refreshToken_idempotent_retry (env : RefreshEnv)
    (suppliedToken subject : String) (user : User) (cand : String)
    (r0 : RenewTokenRec)
    (huser : env.userLookup = some user) (hfresh : env.freshToken = some cand)
    (hnocur : ∀ r ∈ env.ledger, r.RenewToken ≠ suppliedToken)
    (hnext : findByNext suppliedToken env.ledger = some r0)
    (hcand : cand ≠ suppliedToken)
    (hupd : env.updateUserOk = true) (hjwt : env.jwt ≠ none) :
    (refreshToken env suppliedToken subject).resp.isOk = true ∧
    (refreshToken env suppliedToken subject).resp.servedToken =
      some suppliedToken ∧
    (refreshToken env suppliedToken subject).insertedFresh = false ∧
    (refreshToken env suppliedToken subject).ledger = env.ledger ∧
    (refreshToken env suppliedToken subject).freshTokenGenerated = true := by
  have hr0 : r0.NextToken = suppliedToken := findByNext_eq suppliedToken env.ledger r0 hnext
  have hfu : FindAndUpdateRenewToken env.ledger suppliedToken cand =
      some (r0, env.ledger) := by
    unfold FindAndUpdateRenewToken
    rw [findAndUpdateCurrent_none suppliedToken cand env.ledger hnocur, hnext]
    rfl
  obtain ⟨jwt, hjwt2⟩ := Option.ne_none_iff_exists'.mp hjwt
  have hcand2 : ¬(suppliedToken = cand) := fun hh => hcand hh.symm
  refine ⟨?_, ?_, ?_, ?_, ?_⟩ <;>
    simp [refreshToken, huser, hfresh, hfu, hr0, hcand2, hupd, hjwt2,
      RefreshResp.isOk, RefreshResp.servedToken]

theorem refreshToken_idempotent_retry_witness :
    (refreshToken envC1 "T1" "u1").resp.isOk = true ∧
    (refreshToken envC1 "T1" "u1").resp.servedToken = some "T1" ∧
    (refreshToken envC1 "T1" "u1").insertedFresh = false ∧
    (refreshToken envC1 "T1" "u1").ledger = envC1.ledger ∧
    (refreshToken envC1 "T1" "u1").freshTokenGenerated = true :=
  refreshToken_idempotent_retry envC1 "T1" "u1" userC9 "C"
    ⟨"u1", "T0", "T1", 0⟩ rfl rfl (by decide) (by decide) (by decide) rfl
    (by decide)

/-! ## The `verifyEmail` handler (authentication.go lines 528-592) -/

/-- The payload of a validated temp token (`validateTempToken` result):
instance, user and the info map. The map is an association list looked up
with Go map semantics (missing key reads as the zero string where the code
indexes directly). -/
structure TempTokenInfos where
  InstanceID : String
  UserID : String
  Info : List (String × String)
deriving DecidableEq

/-- Association-list lookup for the token info map. -/
def lookupInfo (info : List (String × String)) (k : String) : Option String :=
  (info.find? fun kv => kv.1 == k).map (·.2)

/-- Response classes of `verifyEmail` (all the non-ok ones are 4xx/5xx error
responses that embed no user object). -/
inductive VerifyEmailResp where
  | badRequest
  | invalidToken
  | userNotFound
  | userMismatch
  | missingInfo
  | confirmFailed
  | internalError
  | ok (user : User)
deriving DecidableEq

/-- Whether a verify-email response is the 200 success response. -/
def VerifyEmailResp.isOk : VerifyEmailResp → Bool
  | .ok _ => true
  | _ => false

/-- The `verifyEmail` handler: `tokenLookup` is the `validateTempToken`
result (`none` = invalid/expired/wrong-purpose token), `userLookup` the
`GetUser` result for the token's user, `replaceOk` whether `ReplaceUser`
succeeds. Returns the response and the argument passed to `ReplaceUser`. -/
def verifyEmail (tokenLookup : Option TempTokenInfos) (userLookup : Option User)
    (now : Int) (replaceOk : Bool) : VerifyEmailResp × Option User :=
  match tokenLookup with
  | none => (.invalidToken, none)
  | some tokenInfos =>
    match userLookup with
    | none => (.userNotFound, none)
    | some user =>
      if user.Account.AccountID ≠ (lookupInfo tokenInfos.Info "email").getD "" then
        (.userMismatch, none)
      else
        match lookupInfo tokenInfos.Info "type", lookupInfo tokenInfos.Info "email" with
        | some cType, some email =>
          match user.ConfirmContactInfo cType email now with
          | .error _ => (.confirmFailed, none)
          | .ok user1 =>
            let user2 :=
              if user1.Account.accountType = "email" ∧ user1.Account.AccountID = email
              then { user1 with Account :=
                      { user1.Account with AccountConfirmedAt := now } }
              else user1
            if ¬ replaceOk then (.internalError, some user2)
            else
              (.ok { user2 with Account := { user2.Account with Password := [] } },
               some user2)
        | _, _ => (.missingInfo, none)

/-- C10: every 200 response of login, signup, refresh and verify-email that
embeds the user object clears the stored password hash first, and login,
signup and refresh also reset the pending verification code to its zero
value, so the hash is never returned to a client. -/
theorem success_responses_clear_password :
    (∀ (idKey : IDKeyFun) (env : LoginEnv) (e : String) (p : List Char)
      (i : String) (u : User) (a r sp : String),
      (loginWithEmail idKey env e p i).resp = .ok u a r sp →
      u.Account.Password = [] ∧ u.Account.VerificationCode = {}) ∧
    (∀ (idKey : IDKeyFun) (env : SignupEnv) (e : String) (p : List Char)
      (i ic lg : String) (now : Int) (u : User) (a r sp : String),
      (signupWithEmail idKey env e p i ic lg now).resp = .ok u a r sp →
      u.Account.Password = [] ∧ u.Account.VerificationCode = {}) ∧
    (∀ (env : RefreshEnv) (st sub : String) (u : User) (a r sp : String),
      (refreshToken env st sub).resp = .ok u a r sp →
      u.Account.Password = [] ∧ u.Account.VerificationCode = {}) ∧
    (∀ (tl : Option TempTokenInfos) (ul : Option User) (now : Int) (rep : Bool)
      (u : User),
      (verifyEmail tl ul now rep).1 = .ok u → u.Account.Password = []) := by
  refine ⟨?_, ?_, ?_, ?_⟩
  · intro idKey env e p i u a r sp h
    revert h
    simp only [loginWithEmail]
    repeat' split
    all_goals intro h
    all_goals simp at h
    obtain ⟨h1, -, -, -⟩ := h
    subst h1
    exact ⟨rfl, rfl⟩
  · intro idKey env e p i ic lg now u a r sp h
    revert h
    simp only [signupWithEmail]
    repeat' split
    all_goals intro h
    all_goals simp at h
    obtain ⟨h1, -, -, -⟩ := h
    subst h1
    exact ⟨rfl, rfl⟩
  · intro env st sub u a r sp h
    revert h
    simp only [refreshToken]
    repeat' split
    all_goals intro h
    all_goals simp at h
    obtain ⟨h1, -, -, -⟩ := h
    subst h1
    exact ⟨rfl, rfl⟩
  · intro tl ul now rep u h
    revert h
    simp only [verifyEmail]
    repeat' split
    all_goals intro h
    all_goals simp at h
    all_goals (subst h; rfl)

/-- The user embedded in a 200 login response, `none` otherwise. -/
def LoginResp.respUser : LoginResp → Option User
  | .ok u _ _ _ => some u
  | _ => none

/-- The user embedded in a 200 signup response, `none` otherwise. -/
def SignupResp.respUser : SignupResp → Option User
  | .ok u _ _ _ => some u
  | _ => none

/-- The user embedded in a 200 refresh response, `none` otherwise. -/
def RefreshResp.respUser : RefreshResp → Option User
  | .ok u _ _ _ => some u
  | _ => none

/-- The user embedded in a 200 verify-email response, `none` otherwise. -/
def VerifyEmailResp.respUser : VerifyEmailResp → Option User
  | .ok u => some u
  | _ => none

/-- A signup environment below the cap. -/
def envC10s : SignupEnv := { envC6 with newUserCount := some 0 }

/-- A user owning the contact the verification token below refers to. -/
def userVE : User :=
  { userC9 with ContactInfos := [⟨"ci1", "email", 0, 0, "a@b.c", ""⟩] }

/-- A validated contact-verification token for `userVE`. -/
def tokenVE : TempTokenInfos :=
  { InstanceID := "inst", UserID := "u1",
    Info := [("type", "email"), ("email", "a@b.c")] }

theorem success_responses_clear_password_witness :
    ((loginWithEmail dummyIdKey envC7 "a@b.c" ['p', 'w'] "inst").resp.respUser.map
      fun u => u.Account.Password) = some [] ∧
    ((signupWithEmail dummyIdKey envC10s "a@b.c" ['p'] "inst" "" "en"
        1000).resp.respUser.map fun u => u.Account.Password) = some [] ∧
    ((refreshToken envC1 "T1" "u1").resp.respUser.map
      fun u => u.Account.Password) = some [] ∧
    ((verifyEmail (some tokenVE) (some userVE) 1000 true).1.respUser.map
      fun u => u.Account.Password) = some [] := by
  refine ⟨?_, ?_, ?_, ?_⟩
  · have hok : (loginWithEmail dummyIdKey envC7 "a@b.c" ['p', 'w'] "inst").resp.isOk
        = true := by decide
    cases hr : (loginWithEmail dummyIdKey envC7 "a@b.c" ['p', 'w'] "inst").resp with
    | ok u a r sp =>
      have hp := (success_responses_clear_password.1 dummyIdKey envC7 "a@b.c"
        ['p', 'w'] "inst" u a r sp hr).1
      simp [LoginResp.respUser, hp]
    | badRequest => rw [hr] at hok; simp [LoginResp.isOk] at hok
    | invalidInstance => rw [hr] at hok; simp [LoginResp.isOk] at hok
    | unauthorized => rw [hr] at hok; simp [LoginResp.isOk] at hok
    | internalError => rw [hr] at hok; simp [LoginResp.isOk] at hok
  · have hok : (signupWithEmail dummyIdKey envC10s "a@b.c" ['p'] "inst" "" "en"
        1000).resp.isOk = true := by decide
    cases hr : (signupWithEmail dummyIdKey envC10s "a@b.c" ['p'] "inst" "" "en"
        1000).resp with
    | ok u a r sp =>
      have hp := (success_responses_clear_password.2.1 dummyIdKey envC10s "a@b.c"
        ['p'] "inst" "" "en" 1000 u a r sp hr).1
      simp [SignupResp.respUser, hp]
    | badRequest => rw [hr] at hok; simp [SignupResp.isOk] at hok
    | invalidRequest => rw [hr] at hok; simp [SignupResp.isOk] at hok
    | invalidInstance => rw [hr] at hok; simp [SignupResp.isOk] at hok
    | invalidEmailFormat => rw [hr] at hok; simp [SignupResp.isOk] at hok
    | invalidPasswordFormat => rw [hr] at hok; simp [SignupResp.isOk] at hok
    | invalidLanguage => rw [hr] at hok; simp [SignupResp.isOk] at hok
    | internalError => rw [hr] at hok; simp [SignupResp.isOk] at hok
    | tooManyRequests => rw [hr] at hok; simp [SignupResp.isOk] at hok
  · have hok : (refreshToken envC1 "T1" "u1").resp.isOk = true := by decide
    cases hr : (refreshToken envC1 "T1" "u1").resp with
    | ok u a r sp =>
      have hp := (success_responses_clear_password.2.2.1 envC1 "T1" "u1"
        u a r sp hr).1
      simp [RefreshResp.respUser, hp]
    | badRequest => rw [hr] at hok; simp [RefreshResp.isOk] at hok
    | unauthorized => rw [hr] at hok; simp [RefreshResp.isOk] at hok
    | internalError => rw [hr] at hok; simp [RefreshResp.isOk] at hok
  · have hok : (verifyEmail (some tokenVE) (some userVE) 1000 true).1.isOk
        = true := by decide
    cases hr : (verifyEmail (some tokenVE) (some userVE) 1000 true).1 with
    | ok u =>
      have hp := success_responses_clear_password.2.2.2 (some tokenVE)
        (some userVE) 1000 true u hr
      simp [VerifyEmailResp.respUser, hp]
    | badRequest => rw [hr] at hok; simp [VerifyEmailResp.isOk] at hok
    | invalidToken => rw [hr] at hok; simp [VerifyEmailResp.isOk] at hok
    | userNotFound => rw [hr] at hok; simp [VerifyEmailResp.isOk] at hok
    | userMismatch => rw [hr] at hok; simp [VerifyEmailResp.isOk] at hok
    | missingInfo => rw [hr] at hok; simp [VerifyEmailResp.isOk] at hok
    | confirmFailed => rw [hr] at hok; simp [VerifyEmailResp.isOk] at hok
    | internalError => rw [hr] at hok; simp [VerifyEmailResp.isOk] at hok

end CaseBackend
